import Mathlib

/-! VortexSU kernel supercalls (`kernel/supercalls.c`)

A shallow embedding of the command dispatcher, the try-umount mount registry,
the lifecycle latches of `do_report_event` and the `sys_reboot` side channel,
followed by the properties proved about them.

Conventions of the embedding

* user-space addresses, opcodes, uids, bytes and flags are natural numbers;
  result codes are integers (`-EPERM` is `-1`);
* `mount_list` is the list of entries in the order `list_for_each_entry`
  visits them (first element = `mount_list.next`);
* whatever the C code obtains from outside this file (user memory, the
  allocator, the caller's identity, `task_work_add`, the descriptor table)
  is an explicit input;
* constants that live in headers which are not part of the sources at hand
  (`supercalls.h`, `ksud.h`, `susfs.h`) are fields of parameter structures.
-/

namespace VortexSU

/-! ## Kernel error numbers (errno-base.h) -/

def EPERM : Int := 1
def ENOENT : Int := 2
def ENOMEM : Int := 12
def EFAULT : Int := 14
def EINVAL : Int := 22
def ENOTTY : Int := 25

/-! ## Constants and build switches taken as parameters -/

/-- Values of the macros used by `add_try_umount`, `do_report_event` and
`ksu_handle_sys_reboot`; their header is not among the sources. -/
structure Consts where
  KSU_UMOUNT_WIPE : Nat
  KSU_UMOUNT_ADD : Nat
  KSU_UMOUNT_DEL : Nat
  EVENT_POST_FS_DATA : Nat
  EVENT_BOOT_COMPLETED : Nat
  EVENT_MODULE_MOUNTED : Nat
  KSU_INSTALL_MAGIC1 : Int
  KSU_INSTALL_MAGIC2 : Int
  SUSFS_MAGIC : Int

/-- The case labels of the `switch (cmd.mode)` are pairwise different (a C
compiler rejects duplicate case labels). -/
def Consts.umount_modes_distinct (K : Consts) : Prop :=
  K.KSU_UMOUNT_ADD ≠ K.KSU_UMOUNT_WIPE ∧ K.KSU_UMOUNT_DEL ≠ K.KSU_UMOUNT_WIPE ∧
    K.KSU_UMOUNT_DEL ≠ K.KSU_UMOUNT_ADD

instance (K : Consts) : Decidable K.umount_modes_distinct := by
  unfold Consts.umount_modes_distinct; infer_instance

/-- The case labels of the `switch (cmd.event)` are pairwise different. -/
def Consts.events_distinct (K : Consts) : Prop :=
  K.EVENT_BOOT_COMPLETED ≠ K.EVENT_POST_FS_DATA ∧
    K.EVENT_MODULE_MOUNTED ≠ K.EVENT_POST_FS_DATA ∧
    K.EVENT_MODULE_MOUNTED ≠ K.EVENT_BOOT_COMPLETED

instance (K : Consts) : Decidable K.events_distinct := by
  unfold Consts.events_distinct; infer_instance

/-! ## User memory and C strings -/

/-- Layout-free view of `struct ksu_add_try_umount_cmd`: the fields the
handler reads. -/
structure ksu_add_try_umount_cmd where
  arg : Nat
  flags : Nat
  mode : Nat
  deriving DecidableEq, Repr

/-- Layout-free view of `struct ksu_report_event_cmd`. -/
structure ksu_report_event_cmd where
  event : Nat
  deriving DecidableEq, Repr

/-- What one request can observe of its environment: user memory (typed
reads model `copy_from_user` of a whole struct, `none` is a fault) and the
outcome of the two allocations of the add path. -/
structure Env where
  add_try_umount_cmd_at : Nat → Option ksu_add_try_umount_cmd
  report_event_cmd_at : Nat → Option ksu_report_event_cmd
  byte_at : Nat → Option Nat
  kzalloc_ok : Bool
  kstrdup_ok : Bool

/-- The C string held by a byte buffer: the bytes before the first NUL. -/
def cstr (buf : List Nat) : List Nat := buf.takeWhile (fun c => c ≠ 0)

/-- The loop of `strncpy_from_user(dst, src, count)`: `n` bytes are still
allowed, `i` bytes have been copied.  Returns the value of the call and the
destination buffer.  A fault gives `-EFAULT`; a NUL is copied and ends the
copy with the length; running out of `count` returns `count`, unterminated. -/
def strncpy_loop (byte_at : Nat → Option Nat) (src : Nat) :
    Nat → Nat → List Nat → Int × List Nat
  | 0, i, dst => ((i : Int), dst)
  | n + 1, i, dst =>
    match byte_at (src + i) with
    | none => (-EFAULT, dst)
    | some c =>
      if c = 0 then ((i : Int), dst.set i 0)
      else strncpy_loop byte_at src n (i + 1) (dst.set i c)

def strncpy_from_user (byte_at : Nat → Option Nat) (dst : List Nat) (src count : Nat) :
    Int × List Nat :=
  strncpy_loop byte_at src count 0 dst

/-- The byte loop of the kernel's generic `strcmp`; the end of a list reads
as NUL. -/
def strcmp : List Nat → List Nat → Int
  | [], [] => 0
  | [], c2 :: _ => if c2 = 0 then 0 else -1
  | c1 :: _, [] => if c1 = 0 then 0 else 1
  | c1 :: cs, c2 :: ct =>
    if c1 ≠ c2 then (if c1 < c2 then -1 else 1)
    else if c1 = 0 then 0
    else strcmp cs ct

/-- The copy made by `kstrdup(buf)`: the string up to the first NUL. -/
def kstrdup (buf : List Nat) : List Nat := cstr buf

/-! ## The mount registry (`mount_list`, `add_try_umount`) -/

/-- A `struct mount_entry`: the owned path string and its flags. -/
structure mount_entry where
  umountable : List Nat
  flags : Nat
  deriving DecidableEq, Repr

/-- The stack buffer of the handler:  `char buf[256] = { 0 }`. -/
def buf_init : List Nat := List.replicate 256 0

/-- The wipe loop: `list_for_each_entry_safe` unlinking and freeing every
entry it visits. -/
def wipe_loop : List mount_entry → List mount_entry
  | [] => []
  | _ :: rest => wipe_loop rest

/-- The duplicate scan of the add path: true when some entry's string
compares equal to `buf` (the early `return -1`). -/
def dup_scan (buf : List Nat) : List mount_entry → Bool
  | [] => false
  | entry :: rest => if strcmp entry.umountable buf = 0 then true else dup_scan buf rest

/-- The delete loop: unlink and free each entry whose string compares equal
to `buf`, keep the others. -/
def del_loop (buf : List Nat) : List mount_entry → List mount_entry
  | [] => []
  | entry :: rest =>
    if strcmp entry.umountable buf = 0 then del_loop buf rest
    else entry :: del_loop buf rest

/-- The handler `add_try_umount(arg)`: result code and the new `mount_list`.
`list_add(&new_entry->list, &mount_list)` links the new entry right after the
list head, that is in front of the existing entries. -/
def add_try_umount (K : Consts) (env : Env) (arg : Nat) (mount_list : List mount_entry) :
    Int × List mount_entry :=
  match env.add_try_umount_cmd_at arg with
  | none => (-EFAULT, mount_list)
  | some cmd =>
    if cmd.mode = K.KSU_UMOUNT_WIPE then
      (0, wipe_loop mount_list)
    else if cmd.mode = K.KSU_UMOUNT_ADD then
      let r := strncpy_from_user env.byte_at buf_init cmd.arg 256
      if r.1 ≤ 0 then (-EFAULT, mount_list)
      else
        let buf := r.2.set 255 0
        if env.kzalloc_ok = false then (-ENOMEM, mount_list)
        else if env.kstrdup_ok = false then (-1, mount_list)
        else if dup_scan buf mount_list = true then (-1, mount_list)
        else
          let new_entry : mount_entry :=
            { umountable := kstrdup buf, flags := if cmd.flags ≠ 0 then cmd.flags else 0 }
          (0, new_entry :: mount_list)
    else if cmd.mode = K.KSU_UMOUNT_DEL then
      let r := strncpy_from_user env.byte_at buf_init cmd.arg 255
      if r.1 ≤ 0 then (-EFAULT, mount_list)
      else
        let buf := r.2.set 255 0
        (0, del_loop buf mount_list)
    else (-EINVAL, mount_list)

/-- A C string `p` (no NUL inside) sits NUL-terminated at user address `a`:
byte `i` of `p` is readable at `a + i`, and a NUL at `a + p.length`. -/
def user_cstr (byte_at : Nat → Option Nat) (a : Nat) (p : List Nat) : Prop :=
  ∀ i, i ≤ p.length → byte_at (a + i) = some (p.getD i 0)

/-- A path a caller can name and the registry can hold: non-empty, at most
255 bytes, no NUL byte inside. -/
def valid_path (p : List Nat) : Prop := p ≠ [] ∧ p.length ≤ 255 ∧ (0 : Nat) ∉ p

instance (p : List Nat) : Decidable (valid_path p) := by
  unfold valid_path; infer_instance

/-- Run a sequence of `add_try_umount` requests, each with its own
environment and argument pointer, one after another. -/
def run_umount_requests (K : Consts) : List (Env × Nat) → List mount_entry → List mount_entry
  | [], ml => ml
  | (env, arg) :: rest, ml => run_umount_requests K rest (add_try_umount K env arg ml).2

/-! ## Observable calls -/

/-- Build switches read by the preprocessor in `supercalls.c`. -/
structure Config where
  SULOG_GATE : Bool
  CONFIG_KPM : Bool
  CONFIG_KSU_SUSFS : Bool
  CONFIG_KSU_SUSFS_SUS_PATH : Bool
  CONFIG_KSU_SUSFS_SUS_MOUNT : Bool
  CONFIG_KSU_SUSFS_SUS_KSTAT : Bool
  CONFIG_KSU_SUSFS_SPOOF_UNAME : Bool
  CONFIG_KSU_SUSFS_ENABLE_LOG : Bool
  CONFIG_KSU_SUSFS_SPOOF_CMDLINE_OR_BOOTCONFIG : Bool
  CONFIG_KSU_SUSFS_OPEN_REDIRECT : Bool
  CONFIG_KSU_SUSFS_SUS_MAP : Bool

/-- The permission-check functions a table entry can point to. -/
inductive Perm
  | only_manager | only_root | manager_or_root | always_allow | allowed_for_su
  deriving DecidableEq, Repr

/-- The handler functions a table entry can point to. -/
inductive Handler
  | do_grant_root | do_get_info | do_report_event | do_set_sepolicy | do_check_safemode
  | do_get_allow_list | do_get_deny_list | do_uid_granted_root | do_uid_should_umount
  | do_get_manager_appid | do_get_app_profile | do_set_app_profile | do_get_feature
  | do_set_feature | do_get_wrapper_fd | do_manage_mark | do_nuke_ext4_sysfs
  | add_try_umount | do_get_full_version | do_get_hook_type | do_get_hook_mode
  | do_enable_kpm | do_dynamic_manager | do_get_managers | do_kpm
  deriving DecidableEq, Repr

/-- The extension functions reachable from `ksu_handle_sys_reboot`. -/
inductive SusfsOp
  | susfs_add_sus_path | susfs_add_sus_path_loop | susfs_set_i_state_on_external_dir
  | susfs_set_hide_sus_mnts_for_non_su_procs | susfs_add_sus_kstat | susfs_update_sus_kstat
  | susfs_set_uname | susfs_enable_log | susfs_set_cmdline_or_bootconfig
  | susfs_add_open_redirect | susfs_add_sus_map | susfs_set_avc_log_spoofing
  | susfs_get_enabled_features | susfs_show_variant | susfs_show_version
  deriving DecidableEq, Repr

/-- Calls that leave this file, plus three bookkeeping marks the embedding
adds so that "was evaluated / was invoked / was called" can be stated:
`perm_check`, `handler_call` and `ioctl_audit`.  Kernel-log lines (`pr_info`,
`pr_warn`, `pr_err`) are not recorded. -/
inductive Event
  | perm_check (p : Perm)
  | handler_call (h : Handler) (argp : Nat)
  | ioctl_audit (cmd : Nat) (name : Option String) (uid : Nat) (ret : Int)
  | ksu_sulog_report_syscall (uid : Nat) (name : Option String) (result : String)
  | ksu_sulog_report_permission_check (uid : Nat) (allowed : Bool)
  | on_post_fs_data
  | ksu_sulog_init
  | ksu_dynamic_manager_init
  | on_boot_completed
  | susfs_start_sdcard_monitor_fn
  | on_module_mounted
  | susfs (op : SusfsOp) (arg : Nat)
  | kzalloc_tw
  | kfree_tw
  | do_close_fd (fd : Int)
  deriving DecidableEq, Repr

/-! ## Lifecycle latches (`do_report_event`) -/

/-- The two function-local `static bool` latches. -/
structure Latches where
  post_fs_data_lock : Bool
  boot_complete_lock : Bool
  deriving DecidableEq, Repr

/-- Both latches as initialised at load time. -/
def Latches.initial : Latches := { post_fs_data_lock := false, boot_complete_lock := false }

/-- The calls made inside `if (!post_fs_data_lock) { ... }`. -/
def post_fs_data_actions (cfg : Config) : List Event :=
  [Event.on_post_fs_data] ++ (if cfg.SULOG_GATE then [Event.ksu_sulog_init] else []) ++
    [Event.ksu_dynamic_manager_init]

/-- The calls made inside `if (!boot_complete_lock) { ... }`. -/
def boot_completed_actions (cfg : Config) : List Event :=
  [Event.on_boot_completed] ++
    (if cfg.CONFIG_KSU_SUSFS then [Event.susfs_start_sdcard_monitor_fn] else [])

/-- The handler `do_report_event(arg)`: result code, latches afterwards and
the calls it made, in order. -/
def do_report_event (cfg : Config) (K : Consts) (env : Env) (arg : Nat) (l : Latches) :
    Int × Latches × List Event :=
  match env.report_event_cmd_at arg with
  | none => (-EFAULT, l, [])
  | some cmd =>
    if cmd.event = K.EVENT_POST_FS_DATA then
      if l.post_fs_data_lock = false then
        (0, { l with post_fs_data_lock := true }, post_fs_data_actions cfg)
      else (0, l, [])
    else if cmd.event = K.EVENT_BOOT_COMPLETED then
      if l.boot_complete_lock = false then
        (0, { l with boot_complete_lock := true }, boot_completed_actions cfg)
      else (0, l, [])
    else if cmd.event = K.EVENT_MODULE_MOUNTED then
      (0, l, [Event.on_module_mounted])
    else (0, l, [])

/-- Handle a sequence of report-event requests one after another; returns the
latches at the end and every call made, in order. -/
def run_report_events (cfg : Config) (K : Consts) :
    List (Env × Nat) → Latches → Latches × List Event
  | [], l => (l, [])
  | (env, arg) :: rest, l =>
    let r := do_report_event cfg K env arg l
    let r2 := run_report_events cfg K rest r.2.1
    (r2.1, r.2.2 ++ r2.2)

/-- The request reads as a report of event kind `ev`. -/
def reports_event (ev : Nat) (req : Env × Nat) : Bool :=
  match req.1.report_event_cmd_at req.2 with
  | none => false
  | some cmd => decide (cmd.event = ev)

/-! ## Command registry and dispatcher (`ksu_ioctl_handlers`, `anon_ksu_ioctl`) -/

/-- Values of the `KSU_IOCTL_*` opcode macros; their header is not among the
sources. -/
structure Opcodes where
  KSU_IOCTL_GRANT_ROOT : Nat
  KSU_IOCTL_GET_INFO : Nat
  KSU_IOCTL_REPORT_EVENT : Nat
  KSU_IOCTL_SET_SEPOLICY : Nat
  KSU_IOCTL_CHECK_SAFEMODE : Nat
  KSU_IOCTL_GET_ALLOW_LIST : Nat
  KSU_IOCTL_GET_DENY_LIST : Nat
  KSU_IOCTL_UID_GRANTED_ROOT : Nat
  KSU_IOCTL_UID_SHOULD_UMOUNT : Nat
  KSU_IOCTL_GET_MANAGER_APPID : Nat
  KSU_IOCTL_GET_APP_PROFILE : Nat
  KSU_IOCTL_SET_APP_PROFILE : Nat
  KSU_IOCTL_GET_FEATURE : Nat
  KSU_IOCTL_SET_FEATURE : Nat
  KSU_IOCTL_GET_WRAPPER_FD : Nat
  KSU_IOCTL_MANAGE_MARK : Nat
  KSU_IOCTL_NUKE_EXT4_SYSFS : Nat
  KSU_IOCTL_ADD_TRY_UMOUNT : Nat
  KSU_IOCTL_GET_FULL_VERSION : Nat
  KSU_IOCTL_HOOK_TYPE : Nat
  KSU_IOCTL_GET_HOOK_MODE : Nat
  KSU_IOCTL_ENABLE_KPM : Nat
  KSU_IOCTL_DYNAMIC_MANAGER : Nat
  KSU_IOCTL_GET_MANAGERS : Nat
  KSU_IOCTL_KPM : Nat

/-- What the permission checks read of the calling task: `current_uid().val`,
the value of `is_manager()` and the value of
`ksu_is_allow_uid_for_current(current_uid().val)`. -/
structure Caller where
  uid : Nat
  is_manager : Bool
  is_allow_uid : Bool

def only_manager (c : Caller) : Bool := c.is_manager

def only_root (c : Caller) : Bool := decide (c.uid = 0)

def manager_or_root (c : Caller) : Bool := decide (c.uid = 0) || c.is_manager

def always_allow (_c : Caller) : Bool := true

/-- The check `allowed_for_su`: its value and the report it files when the
log gate is compiled in. -/
def allowed_for_su (cfg : Config) (c : Caller) : Bool × List Event :=
  let is_allowed := c.is_manager || c.is_allow_uid
  (is_allowed,
    if cfg.SULOG_GATE then [Event.ksu_sulog_report_permission_check c.uid is_allowed] else [])

/-- Call through a `perm_check` function pointer. -/
def call_perm (cfg : Config) (p : Perm) (c : Caller) : Bool × List Event :=
  match p with
  | Perm.only_manager => (only_manager c, [])
  | Perm.only_root => (only_root c, [])
  | Perm.manager_or_root => (manager_or_root c, [])
  | Perm.always_allow => (always_allow c, [])
  | Perm.allowed_for_su => allowed_for_su cfg c

/-- One row of the table, `struct ksu_ioctl_cmd_map`; `none` is a NULL
pointer. -/
structure ksu_ioctl_cmd_map where
  cmd : Nat
  name : Option String
  handler : Option Handler
  perm_check : Option Perm
  deriving DecidableEq, Repr

/-- The sentinel row that ends the table. -/
def sentinel : ksu_ioctl_cmd_map :=
  { cmd := 0, name := none, handler := none, perm_check := none }

/-- The table `ksu_ioctl_handlers[]`, rows in declaration order, the
`KPM_OPERATION` row present only under `CONFIG_KPM`, the sentinel last. -/
def ksu_ioctl_handlers (cfg : Config) (O : Opcodes) : List ksu_ioctl_cmd_map :=
  [ { cmd := O.KSU_IOCTL_GRANT_ROOT, name := some "GRANT_ROOT",
      handler := some Handler.do_grant_root, perm_check := some Perm.allowed_for_su },
    { cmd := O.KSU_IOCTL_GET_INFO, name := some "GET_INFO",
      handler := some Handler.do_get_info, perm_check := some Perm.always_allow },
    { cmd := O.KSU_IOCTL_REPORT_EVENT, name := some "REPORT_EVENT",
      handler := some Handler.do_report_event, perm_check := some Perm.only_root },
    { cmd := O.KSU_IOCTL_SET_SEPOLICY, name := some "SET_SEPOLICY",
      handler := some Handler.do_set_sepolicy, perm_check := some Perm.only_root },
    { cmd := O.KSU_IOCTL_CHECK_SAFEMODE, name := some "CHECK_SAFEMODE",
      handler := some Handler.do_check_safemode, perm_check := some Perm.always_allow },
    { cmd := O.KSU_IOCTL_GET_ALLOW_LIST, name := some "GET_ALLOW_LIST",
      handler := some Handler.do_get_allow_list, perm_check := some Perm.manager_or_root },
    { cmd := O.KSU_IOCTL_GET_DENY_LIST, name := some "GET_DENY_LIST",
      handler := some Handler.do_get_deny_list, perm_check := some Perm.manager_or_root },
    { cmd := O.KSU_IOCTL_UID_GRANTED_ROOT, name := some "UID_GRANTED_ROOT",
      handler := some Handler.do_uid_granted_root, perm_check := some Perm.manager_or_root },
    { cmd := O.KSU_IOCTL_UID_SHOULD_UMOUNT, name := some "UID_SHOULD_UMOUNT",
      handler := some Handler.do_uid_should_umount, perm_check := some Perm.manager_or_root },
    { cmd := O.KSU_IOCTL_GET_MANAGER_APPID, name := some "GET_MANAGER_APPID",
      handler := some Handler.do_get_manager_appid, perm_check := some Perm.manager_or_root },
    { cmd := O.KSU_IOCTL_GET_APP_PROFILE, name := some "GET_APP_PROFILE",
      handler := some Handler.do_get_app_profile, perm_check := some Perm.only_manager },
    { cmd := O.KSU_IOCTL_SET_APP_PROFILE, name := some "SET_APP_PROFILE",
      handler := some Handler.do_set_app_profile, perm_check := some Perm.only_manager },
    { cmd := O.KSU_IOCTL_GET_FEATURE, name := some "GET_FEATURE",
      handler := some Handler.do_get_feature, perm_check := some Perm.manager_or_root },
    { cmd := O.KSU_IOCTL_SET_FEATURE, name := some "SET_FEATURE",
      handler := some Handler.do_set_feature, perm_check := some Perm.manager_or_root },
    { cmd := O.KSU_IOCTL_GET_WRAPPER_FD, name := some "GET_WRAPPER_FD",
      handler := some Handler.do_get_wrapper_fd, perm_check := some Perm.manager_or_root },
    { cmd := O.KSU_IOCTL_MANAGE_MARK, name := some "MANAGE_MARK",
      handler := some Handler.do_manage_mark, perm_check := some Perm.manager_or_root },
    { cmd := O.KSU_IOCTL_NUKE_EXT4_SYSFS, name := some "NUKE_EXT4_SYSFS",
      handler := some Handler.do_nuke_ext4_sysfs, perm_check := some Perm.manager_or_root },
    { cmd := O.KSU_IOCTL_ADD_TRY_UMOUNT, name := some "ADD_TRY_UMOUNT",
      handler := some Handler.add_try_umount, perm_check := some Perm.manager_or_root },
    { cmd := O.KSU_IOCTL_GET_FULL_VERSION, name := some "GET_FULL_VERSION",
      handler := some Handler.do_get_full_version, perm_check := some Perm.always_allow },
    { cmd := O.KSU_IOCTL_HOOK_TYPE, name := some "GET_HOOK_TYPE",
      handler := some Handler.do_get_hook_type, perm_check := some Perm.manager_or_root },
    { cmd := O.KSU_IOCTL_GET_HOOK_MODE, name := some "GET_HOOK_MODE",
      handler := some Handler.do_get_hook_mode, perm_check := some Perm.manager_or_root },
    { cmd := O.KSU_IOCTL_ENABLE_KPM, name := some "GET_ENABLE_KPM",
      handler := some Handler.do_enable_kpm, perm_check := some Perm.manager_or_root },
    { cmd := O.KSU_IOCTL_DYNAMIC_MANAGER, name := some "SET_DYNAMIC_MANAGER",
      handler := some Handler.do_dynamic_manager, perm_check := some Perm.only_root },
    { cmd := O.KSU_IOCTL_GET_MANAGERS, name := some "GET_MANAGERS",
      handler := some Handler.do_get_managers, perm_check := some Perm.manager_or_root } ] ++
  (if cfg.CONFIG_KPM then
    [{ cmd := O.KSU_IOCTL_KPM, name := some "KPM_OPERATION",
       handler := some Handler.do_kpm, perm_check := some Perm.manager_or_root }]
   else []) ++
  [sentinel]

/-- Process-wide state a request can change: the mount registry, the two
latches, the state `ext` of the collaborators outside this file, and the
record of calls made so far (oldest first). -/
structure World (σ : Type) where
  mount_list : List mount_entry
  latches : Latches
  ext : σ
  trace : List Event

/-- Behaviour of the handlers whose work is done by collaborators outside
this file: any result code, any change of the collaborators' state. -/
structure Externals (σ : Type) where
  handler : Handler → Caller → Nat → σ → Int × σ

/-- Call through a `handler` function pointer.  `add_try_umount` and
`do_report_event` are the functions above; `do_get_hook_mode` forwards to
`do_get_hook_type`; every other handler is supplied by `X`. -/
def call_handler {σ : Type} (cfg : Config) (K : Consts) (X : Externals σ) (h : Handler)
    (c : Caller) (env : Env) (argp : Nat) (w : World σ) : Int × World σ :=
  match h with
  | Handler.add_try_umount =>
    let r := add_try_umount K env argp w.mount_list
    (r.1, { w with mount_list := r.2 })
  | Handler.do_report_event =>
    let r := do_report_event cfg K env argp w.latches
    (r.1, { w with latches := r.2.1, trace := w.trace ++ r.2.2 })
  | Handler.do_get_hook_mode =>
    let r := X.handler Handler.do_get_hook_type c argp w.ext
    (r.1, { w with ext := r.2 })
  | h =>
    let r := X.handler h c argp w.ext
    (r.1, { w with ext := r.2 })

/-- The label computed inside `ksu_ioctl_audit`. -/
def audit_result (ret : Int) : String :=
  if ret = 0 then "SUCCESS" else if ret = -EPERM then "DENIED" else "FAILED"

/-- The inline function `ksu_ioctl_audit(cmd, cmd_name, uid, ret)`: the call
is marked, and with the log gate compiled in one record goes to the sink. -/
def ksu_ioctl_audit {σ : Type} (cfg : Config) (cmd : Nat) (cmd_name : Option String)
    (uid : Nat) (ret : Int) (w : World σ) : World σ :=
  { w with trace := w.trace ++ [Event.ioctl_audit cmd cmd_name uid ret] ++
      (if cfg.SULOG_GATE then
        [Event.ksu_sulog_report_syscall uid cmd_name (audit_result ret)] else []) }

/-- The body of the `for` loop of `anon_ksu_ioctl`, from table index `i` on
(`tbl` is the rest of the table).  The loop stops at the first row whose
`handler` is NULL. -/
def ioctl_loop {σ : Type} (cfg : Config) (K : Consts) (X : Externals σ) (c : Caller)
    (env : Env) (cmd argp : Nat) : List ksu_ioctl_cmd_map → World σ → Int × World σ
  | [], w => (-ENOTTY, w)
  | e :: rest, w =>
    match e.handler with
    | none => (-ENOTTY, w)
    | some h =>
      if cmd = e.cmd then
        let pr : Bool × World σ :=
          match e.perm_check with
          | none => (true, w)
          | some p =>
            let r := call_perm cfg p c
            (r.1, { w with trace := w.trace ++ [Event.perm_check p] ++ r.2 })
        if pr.1 = false then
          (-EPERM, ksu_ioctl_audit cfg cmd e.name c.uid (-EPERM) pr.2)
        else
          let hr := call_handler cfg K X h c env argp
            { pr.2 with trace := pr.2.trace ++ [Event.handler_call h argp] }
          (hr.1, ksu_ioctl_audit cfg cmd e.name c.uid hr.1 hr.2)
      else ioctl_loop cfg K X c env cmd argp rest w

/-- The dispatcher `anon_ksu_ioctl(filp, cmd, arg)`. -/
def anon_ksu_ioctl {σ : Type} (cfg : Config) (K : Consts) (O : Opcodes) (X : Externals σ)
    (c : Caller) (env : Env) (cmd arg : Nat) (w : World σ) : Int × World σ :=
  ioctl_loop cfg K X c env cmd arg (ksu_ioctl_handlers cfg O) w

/-- The rows the loop can reach: those in front of the first row with a NULL
handler. -/
def real_entries (tbl : List ksu_ioctl_cmd_map) : List ksu_ioctl_cmd_map :=
  tbl.takeWhile (fun e => e.handler.isSome)

/-- The row the loop selects for `cmd`: the first reachable row with that
opcode. -/
def find_entry (tbl : List ksu_ioctl_cmd_map) (cmd : Nat) : Option ksu_ioctl_cmd_map :=
  (real_entries tbl).find? (fun e => decide (cmd = e.cmd))

/-- The value a row's permission check yields for a caller; a NULL check
lets everybody through. -/
def perm_value (cfg : Config) (e : ksu_ioctl_cmd_map) (c : Caller) : Bool :=
  match e.perm_check with
  | none => true
  | some p => (call_perm cfg p c).1

/-- The marks and reports the dispatcher files while checking the permission
of row `e`. -/
def perm_events (cfg : Config) (e : ksu_ioctl_cmd_map) (c : Caller) : List Event :=
  match e.perm_check with
  | none => []
  | some p => [Event.perm_check p] ++ (call_perm cfg p c).2

/-- The event marks a handler invocation. -/
def Event.is_handler_call : Event → Bool
  | Event.handler_call _ _ => true
  | _ => false

/-! ## The `sys_reboot` side channel -/

/-- Values of the `CMD_SUSFS_*` sub-opcode macros; their header is not among
the sources. -/
structure SusfsCmds where
  CMD_SUSFS_ADD_SUS_PATH : Nat
  CMD_SUSFS_ADD_SUS_PATH_LOOP : Nat
  CMD_SUSFS_SET_ANDROID_DATA_ROOT_PATH : Nat
  CMD_SUSFS_SET_SDCARD_ROOT_PATH : Nat
  CMD_SUSFS_HIDE_SUS_MNTS_FOR_NON_SU_PROCS : Nat
  CMD_SUSFS_ADD_SUS_KSTAT : Nat
  CMD_SUSFS_UPDATE_SUS_KSTAT : Nat
  CMD_SUSFS_ADD_SUS_KSTAT_STATICALLY : Nat
  CMD_SUSFS_SET_UNAME : Nat
  CMD_SUSFS_ENABLE_LOG : Nat
  CMD_SUSFS_SET_CMDLINE_OR_BOOTCONFIG : Nat
  CMD_SUSFS_ADD_OPEN_REDIRECT : Nat
  CMD_SUSFS_ADD_SUS_MAP : Nat
  CMD_SUSFS_ENABLE_AVC_LOG_SPOOFING : Nat
  CMD_SUSFS_SHOW_ENABLED_FEATURES : Nat
  CMD_SUSFS_SHOW_VARIANT : Nat
  CMD_SUSFS_SHOW_VERSION : Nat

/-- The `if (cmd == CMD_SUSFS_...) { f(arg); return 0; }` statements of the
extension branch in source order: whether the statement is compiled in, the
sub-opcode it tests and the function it calls. -/
def susfs_chain (cfg : Config) (S : SusfsCmds) : List (Bool × Nat × SusfsOp) :=
  [ (cfg.CONFIG_KSU_SUSFS_SUS_PATH, S.CMD_SUSFS_ADD_SUS_PATH, SusfsOp.susfs_add_sus_path),
    (cfg.CONFIG_KSU_SUSFS_SUS_PATH, S.CMD_SUSFS_ADD_SUS_PATH_LOOP, SusfsOp.susfs_add_sus_path_loop),
    (cfg.CONFIG_KSU_SUSFS_SUS_PATH, S.CMD_SUSFS_SET_ANDROID_DATA_ROOT_PATH, SusfsOp.susfs_set_i_state_on_external_dir),
    (cfg.CONFIG_KSU_SUSFS_SUS_PATH, S.CMD_SUSFS_SET_SDCARD_ROOT_PATH, SusfsOp.susfs_set_i_state_on_external_dir),
    (cfg.CONFIG_KSU_SUSFS_SUS_MOUNT, S.CMD_SUSFS_HIDE_SUS_MNTS_FOR_NON_SU_PROCS, SusfsOp.susfs_set_hide_sus_mnts_for_non_su_procs),
    (cfg.CONFIG_KSU_SUSFS_SUS_KSTAT, S.CMD_SUSFS_ADD_SUS_KSTAT, SusfsOp.susfs_add_sus_kstat),
    (cfg.CONFIG_KSU_SUSFS_SUS_KSTAT, S.CMD_SUSFS_UPDATE_SUS_KSTAT, SusfsOp.susfs_update_sus_kstat),
    (cfg.CONFIG_KSU_SUSFS_SUS_KSTAT, S.CMD_SUSFS_ADD_SUS_KSTAT_STATICALLY, SusfsOp.susfs_add_sus_kstat),
    (cfg.CONFIG_KSU_SUSFS_SPOOF_UNAME, S.CMD_SUSFS_SET_UNAME, SusfsOp.susfs_set_uname),
    (cfg.CONFIG_KSU_SUSFS_ENABLE_LOG, S.CMD_SUSFS_ENABLE_LOG, SusfsOp.susfs_enable_log),
    (cfg.CONFIG_KSU_SUSFS_SPOOF_CMDLINE_OR_BOOTCONFIG, S.CMD_SUSFS_SET_CMDLINE_OR_BOOTCONFIG, SusfsOp.susfs_set_cmdline_or_bootconfig),
    (cfg.CONFIG_KSU_SUSFS_OPEN_REDIRECT, S.CMD_SUSFS_ADD_OPEN_REDIRECT, SusfsOp.susfs_add_open_redirect),
    (cfg.CONFIG_KSU_SUSFS_SUS_MAP, S.CMD_SUSFS_ADD_SUS_MAP, SusfsOp.susfs_add_sus_map),
    (true, S.CMD_SUSFS_ENABLE_AVC_LOG_SPOOFING, SusfsOp.susfs_set_avc_log_spoofing),
    (true, S.CMD_SUSFS_SHOW_ENABLED_FEATURES, SusfsOp.susfs_get_enabled_features),
    (true, S.CMD_SUSFS_SHOW_VARIANT, SusfsOp.susfs_show_variant),
    (true, S.CMD_SUSFS_SHOW_VERSION, SusfsOp.susfs_show_version) ]

/-- Run the chain: the first compiled-in statement whose sub-opcode matches
calls its function; with no match nothing is called. -/
def susfs_dispatch (cmd arg : Nat) : List (Bool × Nat × SusfsOp) → List Event
  | [] => []
  | (enabled, k, op) :: rest =>
    if enabled = true ∧ cmd = k then [Event.susfs op arg] else susfs_dispatch cmd arg rest

/-- A `struct ksu_install_fd_tw`: the callback is always
`ksu_install_fd_tw_func`, so only the output location is kept. -/
structure ksu_install_fd_tw where
  outp : Nat
  deriving DecidableEq, Repr

/-- State of the calling task seen by the side channel: the task works
pending on it (most recently added first), the descriptors bound to the
`[ksu_driver]` file, the `int` values written into its memory by
`copy_to_user`, and the record of calls made (oldest first). -/
structure Proc where
  task_works : List ksu_install_fd_tw
  fds : List Int
  user_int : Nat → Option Int
  trace : List Event

/-- Outcomes the side channel gets from the kernel: whether
`kzalloc(sizeof(*tw), GFP_ATOMIC)` returned memory and whether
`task_work_add` returned 0. -/
structure RebootEnv where
  kzalloc_ok : Bool
  task_work_add_ok : Bool

/-- The function `ksu_handle_sys_reboot(magic1, magic2, cmd, arg)` called
by a task with uid `uid`; `arg4` is `*arg`, the fourth argument of the
intercepted call.  The magic constants are given as the `int` values that
compare equal to them. -/
def ksu_handle_sys_reboot (cfg : Config) (K : Consts) (S : SusfsCmds) (renv : RebootEnv)
    (uid : Nat) (magic1 magic2 : Int) (cmd arg4 : Nat) (p : Proc) : Int × Proc :=
  if magic1 ≠ K.KSU_INSTALL_MAGIC1 then (-EINVAL, p)
  else if magic2 = K.KSU_INSTALL_MAGIC2 then
    if renv.kzalloc_ok = false then (0, p)
    else
      let tw : ksu_install_fd_tw := { outp := arg4 }
      let p1 := { p with trace := p.trace ++ [Event.kzalloc_tw] }
      if renv.task_work_add_ok = true then
        (0, { p1 with task_works := tw :: p1.task_works })
      else
        (0, { p1 with trace := p1.trace ++ [Event.kfree_tw] })
  else if cfg.CONFIG_KSU_SUSFS = true ∧ magic2 = K.SUSFS_MAGIC ∧ uid = 0 then
    (0, { p with trace := p.trace ++ susfs_dispatch cmd arg4 (susfs_chain cfg S) })
  else (0, p)

/-- Registers of the intercepted call as the kprobe sees them. -/
structure pt_regs where
  parm1 : Nat
  parm2 : Nat
  parm3 : Nat
  parm4 : Nat

/-- The conversion `(int)x` of a register value. -/
def to_int32 (x : Nat) : Int :=
  if x % 2 ^ 32 < 2 ^ 31 then ((x % 2 ^ 32 : Nat) : Int) else ((x % 2 ^ 32 : Nat) : Int) - 2 ^ 32

/-- The kprobe pre-handler `reboot_handler_pre`: its return value is the
value of `ksu_handle_sys_reboot`, handed to the kprobe machinery as is. -/
def reboot_handler_pre (cfg : Config) (K : Consts) (S : SusfsCmds) (renv : RebootEnv)
    (uid : Nat) (regs : pt_regs) (p : Proc) : Int × Proc :=
  ksu_handle_sys_reboot cfg K S renv uid (to_int32 regs.parm1) (to_int32 regs.parm2)
    (regs.parm3 % 2 ^ 32) regs.parm4 p

/-- Modelled from the spec: `do_close_fd` is defined outside these sources;
it closes the just-created descriptor. -/
def do_close_fd (fd : Int) (p : Proc) : Proc :=
  { p with fds := p.fds.filter (fun d => d ≠ fd), trace := p.trace ++ [Event.do_close_fd fd] }

/-- The event is a call of an extension function. -/
def Event.is_susfs : Event → Bool
  | Event.susfs _ _ => true
  | _ => false

/-- The event marks a call of `ksu_ioctl_audit`. -/
def Event.is_ioctl_audit : Event → Bool
  | Event.ioctl_audit _ _ _ _ => true
  | _ => false

/-- The event is a record handed to `ksu_sulog_report_syscall`. -/
def Event.is_syscall_report : Event → Bool
  | Event.ksu_sulog_report_syscall _ _ _ => true
  | _ => false

/-- The calls `do_report_event` can make. -/
def lifecycle_calls : List Event :=
  [Event.on_post_fs_data, Event.ksu_sulog_init, Event.ksu_dynamic_manager_init,
    Event.on_boot_completed, Event.susfs_start_sdcard_monitor_fn, Event.on_module_mounted]

/-! ## Overlapping report-event calls

`do_report_event` reads a latch with a plain load and sets it with a plain
store, under no lock.  Several callers reporting the same event kind are
modelled by letting them take turns between the load and the store. -/

/-- The two event kinds that have a latch. -/
inductive LatchKind
  | post_fs_data | boot_completed
  deriving DecidableEq, Repr

/-- The latch of a kind. -/
def Latches.get (l : Latches) : LatchKind → Bool
  | LatchKind.post_fs_data => l.post_fs_data_lock
  | LatchKind.boot_completed => l.boot_complete_lock

/-- The store `lock = true` for a kind. -/
def Latches.set_true (l : Latches) : LatchKind → Latches
  | LatchKind.post_fs_data => { l with post_fs_data_lock := true }
  | LatchKind.boot_completed => { l with boot_complete_lock := true }

/-- The calls made inside the `if (!lock) { ... }` block of a kind. -/
def LatchKind.actions (cfg : Config) : LatchKind → List Event
  | LatchKind.post_fs_data => post_fs_data_actions cfg
  | LatchKind.boot_completed => boot_completed_actions cfg

/-- The event number a request carries for a kind. -/
def LatchKind.event (K : Consts) : LatchKind → Nat
  | LatchKind.post_fs_data => K.EVENT_POST_FS_DATA
  | LatchKind.boot_completed => K.EVENT_BOOT_COMPLETED

/-- Where a caller stands in `if (!lock) { lock = true; ... }`: about to read
the latch, inside the block after having read it as false, or past the
statement. -/
inductive LatchPc
  | at_check | in_block | past
  deriving DecidableEq, Repr

/-- The latches, the position of every caller, and the calls made so far,
each with the index of the caller that made it. -/
structure RaceState where
  latches : Latches
  pcs : List LatchPc
  calls : List (Nat × Event)
  deriving DecidableEq, Repr

/-- Caller `t` moves on by one access: the load and test of the latch, or the
store followed by the calls of the block. -/
def race_step (cfg : Config) (kind : LatchKind) (t : Nat) (s : RaceState) : RaceState :=
  match s.pcs[t]? with
  | some LatchPc.at_check =>
    if s.latches.get kind = false then { s with pcs := s.pcs.set t LatchPc.in_block }
    else { s with pcs := s.pcs.set t LatchPc.past }
  | some LatchPc.in_block =>
    { latches := s.latches.set_true kind, pcs := s.pcs.set t LatchPc.past,
      calls := s.calls ++ (kind.actions cfg).map (fun e => (t, e)) }
  | _ => s

/-- Run the callers in the order a schedule names them. -/
def run_schedule (cfg : Config) (kind : LatchKind) : List Nat → RaceState → RaceState
  | [], s => s
  | t :: rest, s => run_schedule cfg kind rest (race_step cfg kind t s)

/-- `n` callers about to read the latch, both latches unset, no call made. -/
def race_start (n : Nat) : RaceState :=
  { latches := Latches.initial, pcs := List.replicate n LatchPc.at_check, calls := [] }

/-- The schedule in which the callers of `order` run one after another, each
doing its load and its store back to back. -/
def serial : List Nat → List Nat
  | [] => []
  | t :: rest => t :: t :: serial rest

/-- How many steps of a schedule take the latch of the kind from unset to
set. -/
def latch_flips (cfg : Config) (kind : LatchKind) : List Nat → RaceState → Nat
  | [], _ => 0
  | t :: rest, s =>
    (if s.latches.get kind = false ∧ (race_step cfg kind t s).latches.get kind = true
      then 1 else 0) + latch_flips cfg kind rest (race_step cfg kind t s)

/-- Every stored string is a C string: no NUL byte inside. -/
def registry_wf (ml : List mount_entry) : Prop := ∀ e ∈ ml, (0 : Nat) ∉ e.umountable

instance (ml : List mount_entry) : Decidable (registry_wf ml) := by
  unfold registry_wf; infer_instance

/-! ## Sample parameter values

Concrete values used to instantiate the statements below; any other
assignment with pairwise different case labels would serve as well. -/

/-- A sample assignment of the header constants. -/
def sample_consts : Consts :=
  { KSU_UMOUNT_WIPE := 0, KSU_UMOUNT_ADD := 1, KSU_UMOUNT_DEL := 2,
    EVENT_POST_FS_DATA := 1, EVENT_BOOT_COMPLETED := 2, EVENT_MODULE_MOUNTED := 3,
    KSU_INSTALL_MAGIC1 := -559038737, KSU_INSTALL_MAGIC2 := -889275714,
    SUSFS_MAGIC := -84215046 }

/-- The bytes of the path "/x". -/
def path_x : List Nat := [47, 120]

/-- A sample request environment: at address 16 a try-umount command with
the given flags and mode whose path pointer is 32, at address 32 the string
"/x", at address 8 a report-event command for `event`; allocations succeed. -/
def sample_env (flags mode event : Nat) : Env :=
  { add_try_umount_cmd_at := fun a =>
      if a = 16 then some { arg := 32, flags := flags, mode := mode } else none
    report_event_cmd_at := fun a => if a = 8 then some { event := event } else none
    byte_at := fun a =>
      if a = 32 then some 47 else if a = 33 then some 120 else if a = 34 then some 0 else none
    kzalloc_ok := true
    kstrdup_ok := true }

/-- The bytes of the path "/y". -/
def path_y : List Nat := [47, 121]

/-- A sample request environment for an arbitrary path: at address 16 a
try-umount command with the given flags and mode whose path pointer is 32, at
address 32 the bytes of `p` followed by a NUL and then unmapped memory;
allocations succeed. -/
def string_env (p : List Nat) (flags mode : Nat) : Env :=
  { add_try_umount_cmd_at := fun a =>
      if a = 16 then some { arg := 32, flags := flags, mode := mode } else none
    report_event_cmd_at := fun _ => none
    byte_at := fun a => if a < 32 then none else (p ++ [0])[a - 32]?
    kzalloc_ok := true
    kstrdup_ok := true }

/-- A sample build: every switch on. -/
def sample_config : Config :=
  { SULOG_GATE := true, CONFIG_KPM := true, CONFIG_KSU_SUSFS := true,
    CONFIG_KSU_SUSFS_SUS_PATH := true, CONFIG_KSU_SUSFS_SUS_MOUNT := true,
    CONFIG_KSU_SUSFS_SUS_KSTAT := true, CONFIG_KSU_SUSFS_SPOOF_UNAME := true,
    CONFIG_KSU_SUSFS_ENABLE_LOG := true, CONFIG_KSU_SUSFS_SPOOF_CMDLINE_OR_BOOTCONFIG := true,
    CONFIG_KSU_SUSFS_OPEN_REDIRECT := true, CONFIG_KSU_SUSFS_SUS_MAP := true }

/-- A sample numbering of the opcodes: 101, 102, ... in table order. -/
def sample_opcodes : Opcodes :=
  { KSU_IOCTL_GRANT_ROOT := 101,
    KSU_IOCTL_GET_INFO := 102,
    KSU_IOCTL_REPORT_EVENT := 103,
    KSU_IOCTL_SET_SEPOLICY := 104,
    KSU_IOCTL_CHECK_SAFEMODE := 105,
    KSU_IOCTL_GET_ALLOW_LIST := 106,
    KSU_IOCTL_GET_DENY_LIST := 107,
    KSU_IOCTL_UID_GRANTED_ROOT := 108,
    KSU_IOCTL_UID_SHOULD_UMOUNT := 109,
    KSU_IOCTL_GET_MANAGER_APPID := 110,
    KSU_IOCTL_GET_APP_PROFILE := 111,
    KSU_IOCTL_SET_APP_PROFILE := 112,
    KSU_IOCTL_GET_FEATURE := 113,
    KSU_IOCTL_SET_FEATURE := 114,
    KSU_IOCTL_GET_WRAPPER_FD := 115,
    KSU_IOCTL_MANAGE_MARK := 116,
    KSU_IOCTL_NUKE_EXT4_SYSFS := 117,
    KSU_IOCTL_ADD_TRY_UMOUNT := 118,
    KSU_IOCTL_GET_FULL_VERSION := 119,
    KSU_IOCTL_HOOK_TYPE := 120,
    KSU_IOCTL_GET_HOOK_MODE := 121,
    KSU_IOCTL_ENABLE_KPM := 122,
    KSU_IOCTL_DYNAMIC_MANAGER := 123,
    KSU_IOCTL_GET_MANAGERS := 124,
    KSU_IOCTL_KPM := 125 }

/-- Sample collaborators without state: every handler they serve returns 7. -/
def sample_externals : Externals Unit :=
  { handler := fun _ _ _ s => (7, s) }

/-- A sample world: one registry entry, latches unset, nothing recorded. -/
def sample_world : World Unit :=
  { mount_list := [{ umountable := path_x, flags := 1 }], latches := Latches.initial,
    ext := (), trace := [] }

/-- A sample unprivileged caller: uid 10123, not the manager, not allowed. -/
def sample_app : Caller := { uid := 10123, is_manager := false, is_allow_uid := false }

/-- A sample root caller. -/
def sample_root : Caller := { uid := 0, is_manager := false, is_allow_uid := false }

/-- A sample numbering of the extension sub-opcodes: 201, 202, ... -/
def sample_susfs_cmds : SusfsCmds :=
  { CMD_SUSFS_ADD_SUS_PATH := 201,
    CMD_SUSFS_ADD_SUS_PATH_LOOP := 202,
    CMD_SUSFS_SET_ANDROID_DATA_ROOT_PATH := 203,
    CMD_SUSFS_SET_SDCARD_ROOT_PATH := 204,
    CMD_SUSFS_HIDE_SUS_MNTS_FOR_NON_SU_PROCS := 205,
    CMD_SUSFS_ADD_SUS_KSTAT := 206,
    CMD_SUSFS_UPDATE_SUS_KSTAT := 207,
    CMD_SUSFS_ADD_SUS_KSTAT_STATICALLY := 208,
    CMD_SUSFS_SET_UNAME := 209,
    CMD_SUSFS_ENABLE_LOG := 210,
    CMD_SUSFS_SET_CMDLINE_OR_BOOTCONFIG := 211,
    CMD_SUSFS_ADD_OPEN_REDIRECT := 212,
    CMD_SUSFS_ADD_SUS_MAP := 213,
    CMD_SUSFS_ENABLE_AVC_LOG_SPOOFING := 214,
    CMD_SUSFS_SHOW_ENABLED_FEATURES := 215,
    CMD_SUSFS_SHOW_VARIANT := 216,
    CMD_SUSFS_SHOW_VERSION := 217 }

/-- A sample task: nothing pending, no descriptor, nothing written. -/
def sample_proc : Proc :=
  { task_works := [], fds := [], user_int := fun _ => none, trace := [] }

/-- Sample kernel outcomes for the side channel: both calls succeed. -/
def sample_reboot_env : RebootEnv := { kzalloc_ok := true, task_work_add_ok := true }

/-- The registers of an ordinary `reboot(LINUX_REBOOT_MAGIC1,
LINUX_REBOOT_MAGIC2, LINUX_REBOOT_CMD_RESTART, NULL)` call. -/
def plain_reboot_regs : pt_regs :=
  { parm1 := 0xfee1dead, parm2 := 672274793, parm3 := 0x01234567, parm4 := 0 }

/-- The registers of a call with the sample install magic first and an
unrecognised second magic. -/
def unknown_magic2_regs : pt_regs :=
  { parm1 := 0xDEADBEEF, parm2 := 1, parm3 := 0, parm4 := 0 }

theorem cstr_nil : cstr [] = [] := rfl

theorem cstr_cons_zero (l : List Nat) : cstr (0 :: l) = [] := by
  simp [cstr, List.takeWhile_cons]

theorem cstr_cons_ne {c : Nat} (h : c ≠ 0) (l : List Nat) : cstr (c :: l) = c :: cstr l := by
  simp [cstr, List.takeWhile_cons, h]

theorem zero_not_mem_cstr (l : List Nat) : (0 : Nat) ∉ cstr l := by
  intro h
  have := List.mem_takeWhile_imp h
  simp at this

theorem cstr_of_no_zero {l : List Nat} (h : (0 : Nat) ∉ l) : cstr l = l := by
  induction l with
  | nil => rfl
  | cons c t ih =>
    have hc : c ≠ 0 := fun e => h (by simp [e])
    have ht : (0 : Nat) ∉ t := fun m => h (List.mem_cons_of_mem _ m)
    rw [cstr_cons_ne hc, ih ht]

/-- Two buffers compare equal under `strcmp` exactly when they hold the same
C string. -/
theorem strcmp_eq_zero_iff (a b : List Nat) : strcmp a b = 0 ↔ cstr a = cstr b := by
  induction a generalizing b with
  | nil =>
    cases b with
    | nil => simp [strcmp]
    | cons c2 ct =>
      by_cases h : c2 = 0
      · subst h; simp [strcmp, cstr_cons_zero, cstr_nil]
      · simp [strcmp, h, cstr_cons_ne h, cstr_nil]
  | cons c1 cs ih =>
    cases b with
    | nil =>
      by_cases h : c1 = 0
      · subst h; simp [strcmp, cstr_cons_zero, cstr_nil]
      · simp [strcmp, h, cstr_cons_ne h, cstr_nil]
    | cons c2 ct =>
      by_cases h12 : c1 = c2
      · subst h12
        by_cases h : c1 = 0
        · subst h; simp [strcmp, cstr_cons_zero]
        · simp [strcmp, h, cstr_cons_ne h, ih]
      · by_cases h1 : c1 = 0
        · subst h1
          have h2 : c2 ≠ 0 := fun e => h12 e.symm
          have hlt : 0 < c2 := Nat.pos_of_ne_zero h2
          simp [strcmp, h12, cstr_cons_zero, cstr_cons_ne h2, hlt]
        · by_cases h2 : c2 = 0
          · subst h2
            simp [strcmp, h12, cstr_cons_zero, cstr_cons_ne h1]
          · have : ¬ (c1 :: cstr cs = c2 :: cstr ct) := by
              intro e; exact h12 (List.cons.inj e).1
            by_cases hlt : c1 < c2 <;>
              simp [strcmp, h12, cstr_cons_ne h1, cstr_cons_ne h2, hlt]

/-- A buffer whose first bytes are those of `p` followed by a NUL holds the C
string `p`. -/
theorem cstr_of_leading_bytes (p : List Nat) (hp : (0 : Nat) ∉ p) (l : List Nat)
    (h : ∀ j, j ≤ p.length → l[j]? = some (p.getD j 0)) : cstr l = p := by
  induction p generalizing l with
  | nil =>
    have h0 := h 0 (Nat.le_refl _)
    cases l with
    | nil => rfl
    | cons c t =>
      simp at h0
      subst h0
      exact cstr_cons_zero t
  | cons c t ih =>
    have hc : c ≠ 0 := fun e => hp (by simp [e])
    have ht : (0 : Nat) ∉ t := fun m => hp (List.mem_cons_of_mem _ m)
    have h0 := h 0 (Nat.zero_le _)
    cases l with
    | nil => simp at h0
    | cons d u =>
      simp at h0
      subst h0
      rw [cstr_cons_ne hc]
      congr 1
      apply ih ht
      intro j hj
      have := h (j + 1) (by simpa using hj)
      simpa using this

/-- What the copy loop returns when the source holds the C string `p`: the
length copied is `min (i + n) p.length`, and the bytes `i .. ` up to the NUL
or up to the count are those of `p`; the rest of `dst` is untouched. -/
theorem strncpy_loop_spec (byte_at : Nat → Option Nat) (a : Nat) (p : List Nat)
    (hp : (0 : Nat) ∉ p) (hu : user_cstr byte_at a p) :
    ∀ (n i : Nat) (dst : List Nat), i ≤ p.length →
      (strncpy_loop byte_at a n i dst).1 = ((min (i + n) p.length : Nat) : Int) ∧
      ∀ j, (strncpy_loop byte_at a n i dst).2[j]? =
        if i ≤ j ∧ j < i + n ∧ j ≤ p.length then
          (if j < dst.length then some (p.getD j 0) else none)
        else dst[j]? := by
  intro n
  induction n with
  | zero =>
    intro i dst hi
    refine ⟨by simp [strncpy_loop, Nat.min_eq_left hi], ?_⟩
    intro j
    have : ¬ (i ≤ j ∧ j < i + 0 ∧ j ≤ p.length) := by omega
    rw [if_neg this]
    simp [strncpy_loop]
  | succ n ih =>
    intro i dst hi
    have hb := hu i hi
    rcases Nat.lt_or_ge i p.length with hlt | hge
    · have hget : p.getD i 0 = p[i] := by
        simp [List.getD_eq_getElem?_getD, List.getElem?_eq_getElem hlt]
      have hne : p[i] ≠ 0 := fun e => hp (e ▸ List.getElem_mem hlt)
      rw [hget] at hb
      have hstep : strncpy_loop byte_at a (n + 1) i dst =
          strncpy_loop byte_at a n (i + 1) (dst.set i p[i]) := by
        simp [strncpy_loop, hb, hne]
      rw [hstep]
      obtain ⟨h1, h2⟩ := ih (i + 1) (dst.set i p[i]) hlt
      refine ⟨by rw [h1]; congr 1; omega, ?_⟩
      intro j
      rw [h2 j, List.length_set, List.getElem?_set]
      by_cases hij : i = j
      · subst hij
        have c1 : ¬ (i + 1 ≤ i ∧ i < i + 1 + n ∧ i ≤ p.length) := by omega
        have c2 : i ≤ i ∧ i < i + (n + 1) ∧ i ≤ p.length := by omega
        rw [if_neg c1, if_pos c2, if_pos rfl, hget]
      · by_cases hc : i ≤ j ∧ j < i + (n + 1) ∧ j ≤ p.length
        · have c1 : i + 1 ≤ j ∧ j < i + 1 + n ∧ j ≤ p.length := by omega
          rw [if_pos hc, if_pos c1]
        · have c1 : ¬ (i + 1 ≤ j ∧ j < i + 1 + n ∧ j ≤ p.length) := by omega
          rw [if_neg hc, if_neg c1, if_neg hij]
    · have hieq : i = p.length := by omega
      have hget : p.getD i 0 = 0 := by
        simp [List.getD_eq_getElem?_getD, hieq]
      rw [hget] at hb
      have hstep : strncpy_loop byte_at a (n + 1) i dst = ((i : Int), dst.set i 0) := by
        simp [strncpy_loop, hb]
      rw [hstep]
      refine ⟨by simp; omega, ?_⟩
      intro j
      simp only [List.getElem?_set]
      by_cases hij : i = j
      · subst hij
        have c2 : i ≤ i ∧ i < i + (n + 1) ∧ i ≤ p.length := by omega
        rw [if_pos c2, if_pos rfl, hget]
      · have c2 : ¬ (i ≤ j ∧ j < i + (n + 1) ∧ j ≤ p.length) := by omega
        rw [if_neg c2, if_neg hij]

theorem strncpy_loop_length (byte_at : Nat → Option Nat) (a : Nat) :
    ∀ (n i : Nat) (dst : List Nat), (strncpy_loop byte_at a n i dst).2.length = dst.length := by
  intro n
  induction n with
  | zero => intro i dst; rfl
  | succ n ih =>
    intro i dst
    unfold strncpy_loop
    cases byte_at (a + i) with
    | none => rfl
    | some c =>
      by_cases hc : c = 0
      · simp [hc]
      · simp [hc, ih]

theorem buf_init_length : buf_init.length = 256 := List.length_replicate _ _

/-- Copying a valid path with a count of 255 or 256 and then forcing the last
byte of the buffer to NUL leaves exactly that path in the buffer, and the
call returns its length. -/
theorem copied_path (byte_at : Nat → Option Nat) (a : Nat) (p : List Nat)
    (hv : valid_path p) (hu : user_cstr byte_at a p) (count : Nat)
    (hc : count = 255 ∨ count = 256) :
    (strncpy_from_user byte_at buf_init a count).1 = (p.length : Int) ∧
      cstr ((strncpy_from_user byte_at buf_init a count).2.set 255 0) = p := by
  obtain ⟨_, hlen, hz⟩ := hv
  obtain ⟨h1, h2⟩ := strncpy_loop_spec byte_at a p hz hu count 0 buf_init (Nat.zero_le _)
  have hL := strncpy_loop_length byte_at a count 0 buf_init
  rw [buf_init_length] at hL
  unfold strncpy_from_user
  refine ⟨by rw [h1]; congr 1; omega, ?_⟩
  apply cstr_of_leading_bytes p hz
  intro j hj
  rw [List.getElem?_set, hL]
  by_cases h255 : 255 = j
  · subst h255
    have hpl : p.length = 255 := by omega
    have hg : p.getD 255 0 = 0 := by
      rw [List.getD_eq_getElem?_getD, List.getElem?_eq_none (by omega)]; rfl
    rw [if_pos rfl, if_pos (by omega), hg]
  · rw [if_neg h255, h2 j]
    have c : 0 ≤ j ∧ j < 0 + count ∧ j ≤ p.length := by omega
    rw [if_pos c, buf_init_length, if_pos (by omega)]

theorem wipe_loop_eq (ml : List mount_entry) : wipe_loop ml = [] := by
  induction ml with
  | nil => rfl
  | cons e t ih => simpa [wipe_loop] using ih

theorem dup_scan_eq_true_iff (buf : List Nat) (ml : List mount_entry) :
    dup_scan buf ml = true ↔ ∃ e ∈ ml, cstr e.umountable = cstr buf := by
  induction ml with
  | nil => simp [dup_scan]
  | cons e t ih =>
    by_cases h : strcmp e.umountable buf = 0
    · have h2 := (strcmp_eq_zero_iff _ _).1 h
      simp [dup_scan, h, h2]
    · have h2 : ¬ cstr e.umountable = cstr buf := fun e2 => h ((strcmp_eq_zero_iff _ _).2 e2)
      simp [dup_scan, h, h2, ih]

theorem del_loop_eq_filter (buf : List Nat) (ml : List mount_entry) :
    del_loop buf ml = ml.filter (fun e => decide (cstr e.umountable ≠ cstr buf)) := by
  induction ml with
  | nil => rfl
  | cons e t ih =>
    by_cases h : strcmp e.umountable buf = 0
    · have h2 := (strcmp_eq_zero_iff _ _).1 h
      simp [del_loop, h, h2, ih]
    · have h2 : ¬ cstr e.umountable = cstr buf := fun e2 => h ((strcmp_eq_zero_iff _ _).2 e2)
      simp [del_loop, h, h2, ih]

/-- The four ways a request can leave the registry: untouched, emptied, one
entry put in front after a scan that found no equal string, or filtered by
the delete loop. -/
theorem add_try_umount_cases (K : Consts) (env : Env) (arg : Nat) (ml : List mount_entry) :
    (add_try_umount K env arg ml).2 = ml ∨ (add_try_umount K env arg ml).2 = [] ∨
      (∃ buf f, dup_scan buf ml = false ∧
        (add_try_umount K env arg ml).2 = { umountable := kstrdup buf, flags := f } :: ml) ∨
      (∃ buf, (add_try_umount K env arg ml).2 = del_loop buf ml) := by
  unfold add_try_umount
  cases env.add_try_umount_cmd_at arg with
  | none => exact Or.inl rfl
  | some cmd =>
    simp only
    by_cases h1 : cmd.mode = K.KSU_UMOUNT_WIPE
    · rw [if_pos h1]; exact Or.inr (Or.inl (wipe_loop_eq ml))
    · rw [if_neg h1]
      by_cases h2 : cmd.mode = K.KSU_UMOUNT_ADD
      · rw [if_pos h2]
        by_cases h3 : (strncpy_from_user env.byte_at buf_init cmd.arg 256).1 ≤ 0
        · rw [if_pos h3]; exact Or.inl rfl
        · rw [if_neg h3]
          by_cases h4 : env.kzalloc_ok = false
          · rw [if_pos h4]; exact Or.inl rfl
          · rw [if_neg h4]
            by_cases h5 : env.kstrdup_ok = false
            · rw [if_pos h5]; exact Or.inl rfl
            · rw [if_neg h5]
              by_cases h6 : dup_scan
                  ((strncpy_from_user env.byte_at buf_init cmd.arg 256).2.set 255 0) ml = true
              · rw [if_pos h6]; exact Or.inl rfl
              · rw [if_neg h6]
                exact Or.inr (Or.inr (Or.inl ⟨_, _, by simpa using h6, rfl⟩))
      · rw [if_neg h2]
        by_cases h7 : cmd.mode = K.KSU_UMOUNT_DEL
        · rw [if_pos h7]
          by_cases h3 : (strncpy_from_user env.byte_at buf_init cmd.arg 255).1 ≤ 0
          · rw [if_pos h3]; exact Or.inl rfl
          · rw [if_neg h3]; exact Or.inr (Or.inr (Or.inr ⟨_, rfl⟩))
        · rw [if_neg h7]; exact Or.inl rfl

/-- One request keeps the registry well formed and free of duplicate paths. -/
theorem add_try_umount_preserves (K : Consts) (env : Env) (arg : Nat) (ml : List mount_entry)
    (hwf : registry_wf ml) (hnd : (ml.map (fun e => e.umountable)).Nodup) :
    registry_wf (add_try_umount K env arg ml).2 ∧
      ((add_try_umount K env arg ml).2.map (fun e => e.umountable)).Nodup := by
  rcases add_try_umount_cases K env arg ml with h | h | ⟨buf, f, hscan, h⟩ | ⟨buf, h⟩
  · rw [h]; exact ⟨hwf, hnd⟩
  · rw [h]; exact ⟨by intro e he; simp at he, by simp⟩
  · rw [h]
    have hno : ¬ ∃ e ∈ ml, cstr e.umountable = cstr buf := by
      intro hex
      rw [(dup_scan_eq_true_iff _ _).2 hex] at hscan
      exact Bool.noConfusion hscan
    constructor
    · intro e he
      rcases List.mem_cons.1 he with rfl | he
      · exact zero_not_mem_cstr _
      · exact hwf e he
    · simp only [List.map_cons, List.nodup_cons]
      refine ⟨?_, hnd⟩
      intro hmem
      obtain ⟨e, he, heq⟩ := List.mem_map.1 hmem
      apply hno
      refine ⟨e, he, ?_⟩
      rw [cstr_of_no_zero (hwf e he)]
      exact heq
  · rw [h, del_loop_eq_filter]
    constructor
    · intro e he
      exact hwf e (List.mem_filter.1 he).1
    · exact (List.Nodup.sublist (List.Sublist.map _ (List.filter_sublist _)) hnd)

theorem run_umount_requests_preserves (K : Consts) (reqs : List (Env × Nat)) :
    ∀ ml : List mount_entry, registry_wf ml → (ml.map (fun e => e.umountable)).Nodup →
      registry_wf (run_umount_requests K reqs ml) ∧
        ((run_umount_requests K reqs ml).map (fun e => e.umountable)).Nodup := by
  induction reqs with
  | nil => intro ml hwf hnd; exact ⟨hwf, hnd⟩
  | cons r rest ih =>
    intro ml hwf hnd
    obtain ⟨env, arg⟩ := r
    obtain ⟨h1, h2⟩ := add_try_umount_preserves K env arg ml hwf hnd
    exact ih _ h1 h2

theorem dup_scan_congr {b1 b2 : List Nat} (h : cstr b1 = cstr b2) (ml : List mount_entry) :
    dup_scan b1 ml = dup_scan b2 ml := by
  rw [Bool.eq_iff_iff, dup_scan_eq_true_iff, dup_scan_eq_true_iff, h]

theorem del_loop_congr {b1 b2 : List Nat} (h : cstr b1 = cstr b2) (ml : List mount_entry) :
    del_loop b1 ml = del_loop b2 ml := by
  rw [del_loop_eq_filter, del_loop_eq_filter, h]

/-- The add path on a readable request naming the valid path `p`. -/
theorem add_try_umount_add_eval (K : Consts) (env : Env) (arg : Nat)
    (cmd : ksu_add_try_umount_cmd) (p : List Nat) (ml : List mount_entry)
    (hcmd : env.add_try_umount_cmd_at arg = some cmd) (hmode : cmd.mode = K.KSU_UMOUNT_ADD)
    (hK : K.KSU_UMOUNT_ADD ≠ K.KSU_UMOUNT_WIPE) (hv : valid_path p)
    (hu : user_cstr env.byte_at cmd.arg p) :
    add_try_umount K env arg ml =
      if env.kzalloc_ok = false then (-ENOMEM, ml)
      else if env.kstrdup_ok = false then (-1, ml)
      else if dup_scan p ml = true then (-1, ml)
      else (0, { umountable := p, flags := cmd.flags } :: ml) := by
  obtain ⟨hlen, hbuf⟩ := copied_path env.byte_at cmd.arg p hv hu 256 (Or.inr rfl)
  have hpos : ¬ (strncpy_from_user env.byte_at buf_init cmd.arg 256).1 ≤ 0 := by
    rw [hlen]
    have : 0 < p.length := List.length_pos.2 hv.1
    omega
  have hw : ¬ cmd.mode = K.KSU_UMOUNT_WIPE := by rw [hmode]; exact hK
  have hscan : dup_scan ((strncpy_from_user env.byte_at buf_init cmd.arg 256).2.set 255 0) ml =
      dup_scan p ml :=
    dup_scan_congr (by rw [hbuf, cstr_of_no_zero hv.2.2]) ml
  have hflags : (if cmd.flags ≠ 0 then cmd.flags else 0) = cmd.flags := by
    by_cases hf : cmd.flags = 0
    · simp [hf]
    · simp [hf]
  unfold add_try_umount
  rw [hcmd]
  simp only
  rw [if_neg hw, if_pos hmode, if_neg hpos, hscan, kstrdup, hbuf, hflags]

/-- The delete path on a readable request naming the valid path `p`. -/
theorem add_try_umount_del_eval (K : Consts) (env : Env) (arg : Nat)
    (cmd : ksu_add_try_umount_cmd) (p : List Nat) (ml : List mount_entry)
    (hcmd : env.add_try_umount_cmd_at arg = some cmd) (hmode : cmd.mode = K.KSU_UMOUNT_DEL)
    (hK : K.umount_modes_distinct) (hv : valid_path p)
    (hu : user_cstr env.byte_at cmd.arg p) :
    add_try_umount K env arg ml = (0, del_loop p ml) := by
  obtain ⟨hlen, hbuf⟩ := copied_path env.byte_at cmd.arg p hv hu 255 (Or.inl rfl)
  have hpos : ¬ (strncpy_from_user env.byte_at buf_init cmd.arg 255).1 ≤ 0 := by
    rw [hlen]
    have : 0 < p.length := List.length_pos.2 hv.1
    omega
  have hw : ¬ cmd.mode = K.KSU_UMOUNT_WIPE := by rw [hmode]; exact hK.2.1
  have ha : ¬ cmd.mode = K.KSU_UMOUNT_ADD := by rw [hmode]; exact hK.2.2
  have hloop : del_loop ((strncpy_from_user env.byte_at buf_init cmd.arg 255).2.set 255 0) ml =
      del_loop p ml :=
    del_loop_congr (by rw [hbuf, cstr_of_no_zero hv.2.2]) ml
  unfold add_try_umount
  rw [hcmd]
  simp only
  rw [if_neg hw, if_neg ha, if_pos hmode, if_neg hpos, hloop]

theorem del_loop_wf (p : List Nat) (hp : (0 : Nat) ∉ p) (ml : List mount_entry)
    (hwf : registry_wf ml) :
    del_loop p ml = ml.filter (fun e => decide (e.umountable ≠ p)) := by
  rw [del_loop_eq_filter]
  apply List.filter_congr
  intro e he
  rw [cstr_of_no_zero (hwf e he), cstr_of_no_zero hp]

theorem dup_scan_of_mem (p : List Nat) (ml : List mount_entry)
    (h : ∃ e ∈ ml, e.umountable = p) : dup_scan p ml = true := by
  obtain ⟨e, he, heq⟩ := h
  exact (dup_scan_eq_true_iff _ _).2 ⟨e, he, by rw [heq]⟩

theorem sample_user_cstr (flags mode event : Nat) :
    user_cstr (sample_env flags mode event).byte_at 32 path_x := by
  intro i hi
  have h2 : i ≤ 2 := hi
  interval_cases i <;> rfl

theorem path_x_valid : valid_path path_x := by decide

/-! ## The mount registry: properties -/

/-- C4, as stated, fails: the registry holds "/x", an Add of "/x" arrives and
the allocation of the new entry fails; the request is turned down with
`-ENOMEM` (`-12`) before the duplicate scan is reached, not with the `-1` of
the duplicate check. -/
theorem add_duplicate_enomem_counterexample :
    add_try_umount sample_consts { sample_env 2 1 0 with kzalloc_ok := false } 16
        [{ umountable := path_x, flags := 1 }] =
      (-12, [{ umountable := path_x, flags := 1 }]) ∧ (-12 : Int) ≠ -1 := by
  constructor <;> decide

/-- C4, amended: when the registry already holds an entry for the valid path
`p`, an Add request naming `p` leaves the registry exactly as it was and
fails, whatever the flags: with `-ENOMEM` when the allocation of the new
entry, made before the duplicate scan, fails, and with the `-1` of the
duplicate check otherwise.  In particular Add("/x", 1) then Add("/x", 2) on
the empty registry, allocations succeeding, leaves the single entry "/x" with
flags 1. -/
theorem add_duplicate_rejected :
    (∀ (K : Consts) (env : Env) (arg : Nat) (cmd : ksu_add_try_umount_cmd) (p : List Nat)
        (ml : List mount_entry),
        env.add_try_umount_cmd_at arg = some cmd → cmd.mode = K.KSU_UMOUNT_ADD →
        K.KSU_UMOUNT_ADD ≠ K.KSU_UMOUNT_WIPE → valid_path p →
        user_cstr env.byte_at cmd.arg p → (∃ e ∈ ml, e.umountable = p) →
        (add_try_umount K env arg ml).2 = ml ∧
          (add_try_umount K env arg ml).1 =
            (if env.kzalloc_ok = false then -ENOMEM else -1) ∧
          (add_try_umount K env arg ml).1 ≠ 0) ∧
    (∀ (K : Consts) (env1 env2 : Env) (arg1 arg2 a1 a2 : Nat),
        K.KSU_UMOUNT_ADD ≠ K.KSU_UMOUNT_WIPE →
        env1.add_try_umount_cmd_at arg1 = some { arg := a1, flags := 1, mode := K.KSU_UMOUNT_ADD } →
        user_cstr env1.byte_at a1 path_x → env1.kzalloc_ok = true → env1.kstrdup_ok = true →
        env2.add_try_umount_cmd_at arg2 = some { arg := a2, flags := 2, mode := K.KSU_UMOUNT_ADD } →
        user_cstr env2.byte_at a2 path_x → env2.kzalloc_ok = true →
        add_try_umount K env1 arg1 [] = (0, [{ umountable := path_x, flags := 1 }]) ∧
          add_try_umount K env2 arg2 (add_try_umount K env1 arg1 []).2 =
            (-1, [{ umountable := path_x, flags := 1 }])) := by
  have gen : ∀ (K : Consts) (env : Env) (arg : Nat) (cmd : ksu_add_try_umount_cmd)
      (p : List Nat) (ml : List mount_entry),
      env.add_try_umount_cmd_at arg = some cmd → cmd.mode = K.KSU_UMOUNT_ADD →
      K.KSU_UMOUNT_ADD ≠ K.KSU_UMOUNT_WIPE → valid_path p →
      user_cstr env.byte_at cmd.arg p → (∃ e ∈ ml, e.umountable = p) →
      (add_try_umount K env arg ml).2 = ml ∧
        (add_try_umount K env arg ml).1 =
          (if env.kzalloc_ok = false then -ENOMEM else -1) ∧
        (add_try_umount K env arg ml).1 ≠ 0 := by
    intro K env arg cmd p ml hcmd hmode hK hv hu hmem
    rw [add_try_umount_add_eval K env arg cmd p ml hcmd hmode hK hv hu,
      dup_scan_of_mem p ml hmem]
    cases hz : env.kzalloc_ok <;> cases hs : env.kstrdup_ok <;> simp [ENOMEM]
  refine ⟨gen, ?_⟩
  intro K env1 env2 arg1 arg2 a1 a2 hK h1 hu1 hz1 hs1 h2 hu2 hz2
  have e1 : add_try_umount K env1 arg1 [] = (0, [{ umountable := path_x, flags := 1 }]) := by
    rw [add_try_umount_add_eval K env1 arg1 _ path_x [] h1 rfl hK path_x_valid hu1, hz1, hs1]
    simp [dup_scan]
  refine ⟨e1, ?_⟩
  rw [e1]
  obtain ⟨g1, g2, _⟩ := gen K env2 arg2 _ path_x [{ umountable := path_x, flags := 1 }] h2 rfl hK
    path_x_valid hu2 ⟨_, List.mem_singleton.2 rfl, rfl⟩
  rw [hz2] at g2
  exact Prod.ext g2 g1

theorem add_duplicate_rejected_witness :
    add_try_umount sample_consts (sample_env 2 1 0) 16 [{ umountable := path_x, flags := 1 }] =
      (-1, [{ umountable := path_x, flags := 1 }]) := by
  obtain ⟨g1, g2, _⟩ := add_duplicate_rejected.1 sample_consts (sample_env 2 1 0) 16
    { arg := 32, flags := 2, mode := 1 } path_x [{ umountable := path_x, flags := 1 }]
    rfl rfl (by decide) path_x_valid (sample_user_cstr 2 1 0)
    ⟨_, List.mem_singleton.2 rfl, rfl⟩
  exact Prod.ext g2 g1

/-- C5: whatever sequence of requests is applied to the empty registry, no
two entries of the resulting `mount_list` carry the same path string. -/
theorem registry_paths_nodup (K : Consts) (reqs : List (Env × Nat)) :
    ((run_umount_requests K reqs []).map (fun e => e.umountable)).Nodup :=
  (run_umount_requests_preserves K reqs [] (by intro e he; simp at he) (by simp)).2

/-- C6: a Delete request naming the valid path `p` succeeds and leaves the
registry with exactly the entries whose path differs from `p`, in their old
order and with their flags; after Add("/x") on the empty registry,
Delete("/x") leaves it empty. -/
theorem delete_removes_every_match :
    (∀ (K : Consts) (env : Env) (arg : Nat) (cmd : ksu_add_try_umount_cmd) (p : List Nat)
        (ml : List mount_entry),
        env.add_try_umount_cmd_at arg = some cmd → cmd.mode = K.KSU_UMOUNT_DEL →
        K.umount_modes_distinct → valid_path p → user_cstr env.byte_at cmd.arg p →
        registry_wf ml →
        add_try_umount K env arg ml = (0, ml.filter (fun e => decide (e.umountable ≠ p)))) ∧
    (∀ (K : Consts) (env1 env2 : Env) (arg1 arg2 a1 a2 f1 f2 : Nat),
        K.umount_modes_distinct →
        env1.add_try_umount_cmd_at arg1 =
          some { arg := a1, flags := f1, mode := K.KSU_UMOUNT_ADD } →
        user_cstr env1.byte_at a1 path_x → env1.kzalloc_ok = true → env1.kstrdup_ok = true →
        env2.add_try_umount_cmd_at arg2 =
          some { arg := a2, flags := f2, mode := K.KSU_UMOUNT_DEL } →
        user_cstr env2.byte_at a2 path_x →
        add_try_umount K env1 arg1 [] = (0, [{ umountable := path_x, flags := f1 }]) ∧
          add_try_umount K env2 arg2 (add_try_umount K env1 arg1 []).2 = (0, [])) := by
  have gen : ∀ (K : Consts) (env : Env) (arg : Nat) (cmd : ksu_add_try_umount_cmd)
      (p : List Nat) (ml : List mount_entry),
      env.add_try_umount_cmd_at arg = some cmd → cmd.mode = K.KSU_UMOUNT_DEL →
      K.umount_modes_distinct → valid_path p → user_cstr env.byte_at cmd.arg p →
      registry_wf ml →
      add_try_umount K env arg ml = (0, ml.filter (fun e => decide (e.umountable ≠ p))) := by
    intro K env arg cmd p ml hcmd hmode hK hv hu hwf
    rw [add_try_umount_del_eval K env arg cmd p ml hcmd hmode hK hv hu,
      del_loop_wf p hv.2.2 ml hwf]
  refine ⟨gen, ?_⟩
  intro K env1 env2 arg1 arg2 a1 a2 f1 f2 hK h1 hu1 hz1 hs1 h2 hu2
  have e1 : add_try_umount K env1 arg1 [] = (0, [{ umountable := path_x, flags := f1 }]) := by
    rw [add_try_umount_add_eval K env1 arg1 _ path_x [] h1 rfl hK.1 path_x_valid hu1, hz1, hs1]
    simp [dup_scan]
  refine ⟨e1, ?_⟩
  rw [e1, gen K env2 arg2 _ path_x _ h2 rfl hK path_x_valid hu2
    (by intro e he; rw [List.mem_singleton.1 he]; exact path_x_valid.2.2)]
  simp

theorem delete_removes_every_match_witness :
    add_try_umount sample_consts (sample_env 0 2 0) 16
        [{ umountable := path_x, flags := 1 }, { umountable := [47, 121], flags := 5 },
          { umountable := path_x, flags := 7 }] =
      (0, [{ umountable := [47, 121], flags := 5 }]) :=
  delete_removes_every_match.1 sample_consts (sample_env 0 2 0) 16
    { arg := 32, flags := 0, mode := 2 } path_x _ rfl rfl (by decide) path_x_valid
    (sample_user_cstr 0 2 0) (by decide)

/-- C7: a Wipe request succeeds and leaves the registry with no entry,
whatever the registry held and whatever path pointer and flags the request
carries. -/
theorem wipe_empties_registry (K : Consts) (env : Env) (arg : Nat)
    (cmd : ksu_add_try_umount_cmd) (ml : List mount_entry)
    (hcmd : env.add_try_umount_cmd_at arg = some cmd) (hmode : cmd.mode = K.KSU_UMOUNT_WIPE) :
    add_try_umount K env arg ml = (0, []) := by
  unfold add_try_umount
  rw [hcmd]
  simp only
  rw [if_pos hmode, wipe_loop_eq]

theorem wipe_empties_registry_witness :
    add_try_umount sample_consts (sample_env 9 0 0) 16
        [{ umountable := path_x, flags := 1 }, { umountable := [47, 121], flags := 5 }] =
      (0, []) :=
  wipe_empties_registry sample_consts (sample_env 9 0 0) 16 { arg := 32, flags := 9, mode := 0 }
    _ rfl rfl

/-! ## Lifecycle latches: properties -/

theorem count_post_fs_data_actions (cfg : Config) :
    ∀ e ∈ post_fs_data_actions cfg,
      (post_fs_data_actions cfg).count e = 1 ∧ (boot_completed_actions cfg).count e = 0 ∧
        e ≠ Event.on_module_mounted := by
  unfold post_fs_data_actions boot_completed_actions
  cases cfg.SULOG_GATE <;> cases cfg.CONFIG_KSU_SUSFS <;> decide

theorem count_boot_completed_actions (cfg : Config) :
    ∀ e ∈ boot_completed_actions cfg,
      (boot_completed_actions cfg).count e = 1 ∧ (post_fs_data_actions cfg).count e = 0 ∧
        e ≠ Event.on_module_mounted := by
  unfold post_fs_data_actions boot_completed_actions
  cases cfg.SULOG_GATE <;> cases cfg.CONFIG_KSU_SUSFS <;> decide

theorem latch_arith (a b c : Bool) :
    ((if a = false ∧ b = true then 1 else 0) + (if (a || b) = false ∧ c = true then 1 else 0) :
      Nat) = (if a = false ∧ (b || c) = true then 1 else 0) := by
  cases a <;> cases b <;> cases c <;> rfl

/-- One request: how often it runs a post-fs-data action, and the latch
afterwards. -/
theorem do_report_event_post_fs_data (cfg : Config) (K : Consts) (env : Env) (arg : Nat)
    (l : Latches) (e : Event) (he : e ∈ post_fs_data_actions cfg) :
    (do_report_event cfg K env arg l).2.2.count e =
        (if l.post_fs_data_lock = false ∧ reports_event K.EVENT_POST_FS_DATA (env, arg) = true
          then 1 else 0) ∧
      (do_report_event cfg K env arg l).2.1.post_fs_data_lock =
        (l.post_fs_data_lock || reports_event K.EVENT_POST_FS_DATA (env, arg)) := by
  obtain ⟨c1, c2, c3⟩ := count_post_fs_data_actions cfg e he
  unfold do_report_event reports_event
  cases hcmd : env.report_event_cmd_at arg with
  | none => simp
  | some cmd =>
    simp only
    by_cases h1 : cmd.event = K.EVENT_POST_FS_DATA
    · have hd := decide_eq_true h1
      rw [if_pos h1]; simp only [hd]
      cases hl : l.post_fs_data_lock <;> simp [c1, hl]
    · have hd := decide_eq_false h1
      rw [if_neg h1]; simp only [hd]
      by_cases h2 : cmd.event = K.EVENT_BOOT_COMPLETED
      · rw [if_pos h2]
        cases hl : l.boot_complete_lock <;> simp [c2]
      · rw [if_neg h2]
        by_cases h3 : cmd.event = K.EVENT_MODULE_MOUNTED
        · rw [if_pos h3]; simp [List.count_cons, Ne.symm c3]
        · rw [if_neg h3]; simp

/-- One request: how often it runs a boot-completed action, and the latch
afterwards. -/
theorem do_report_event_boot_completed (cfg : Config) (K : Consts) (hK : K.events_distinct)
    (env : Env) (arg : Nat) (l : Latches) (e : Event) (he : e ∈ boot_completed_actions cfg) :
    (do_report_event cfg K env arg l).2.2.count e =
        (if l.boot_complete_lock = false ∧ reports_event K.EVENT_BOOT_COMPLETED (env, arg) = true
          then 1 else 0) ∧
      (do_report_event cfg K env arg l).2.1.boot_complete_lock =
        (l.boot_complete_lock || reports_event K.EVENT_BOOT_COMPLETED (env, arg)) := by
  obtain ⟨c1, c2, c3⟩ := count_boot_completed_actions cfg e he
  unfold do_report_event reports_event
  cases hcmd : env.report_event_cmd_at arg with
  | none => simp
  | some cmd =>
    simp only
    by_cases h1 : cmd.event = K.EVENT_POST_FS_DATA
    · have hb : ¬ cmd.event = K.EVENT_BOOT_COMPLETED := by
        rw [h1]; exact fun h => hK.1 h.symm
      have hd := decide_eq_false hb
      rw [if_pos h1]; simp only [hd]
      cases hl : l.post_fs_data_lock <;> simp [c2]
    · rw [if_neg h1]
      by_cases h2 : cmd.event = K.EVENT_BOOT_COMPLETED
      · have hd := decide_eq_true h2
        rw [if_pos h2]; simp only [hd]
        cases hl : l.boot_complete_lock <;> simp [c1, hl]
      · have hd := decide_eq_false h2
        rw [if_neg h2]; simp only [hd]
        by_cases h3 : cmd.event = K.EVENT_MODULE_MOUNTED
        · rw [if_pos h3]; simp [List.count_cons, Ne.symm c3]
        · rw [if_neg h3]; simp

theorem run_report_events_post_fs_data (cfg : Config) (K : Consts) (e : Event)
    (he : e ∈ post_fs_data_actions cfg) (reqs : List (Env × Nat)) :
    ∀ l : Latches,
      (run_report_events cfg K reqs l).2.count e =
        (if l.post_fs_data_lock = false ∧
            reqs.any (reports_event K.EVENT_POST_FS_DATA) = true then 1 else 0) ∧
      (run_report_events cfg K reqs l).1.post_fs_data_lock =
        (l.post_fs_data_lock || reqs.any (reports_event K.EVENT_POST_FS_DATA)) := by
  induction reqs with
  | nil => intro l; simp [run_report_events]
  | cons r rest ih =>
    intro l
    obtain ⟨env, arg⟩ := r
    obtain ⟨s1, s2⟩ := do_report_event_post_fs_data cfg K env arg l e he
    obtain ⟨i1, i2⟩ := ih (do_report_event cfg K env arg l).2.1
    constructor
    · have hc : (run_report_events cfg K ((env, arg) :: rest) l).2.count e =
          (do_report_event cfg K env arg l).2.2.count e +
            (run_report_events cfg K rest (do_report_event cfg K env arg l).2.1).2.count e := by
        simp [run_report_events, List.count_append]
      rw [hc, s1, i1, s2, List.any_cons]
      exact latch_arith _ _ _
    · show (run_report_events cfg K rest (do_report_event cfg K env arg l).2.1).1.post_fs_data_lock = _
      rw [i2, s2, List.any_cons, Bool.or_assoc]

theorem run_report_events_boot_completed (cfg : Config) (K : Consts) (hK : K.events_distinct)
    (e : Event) (he : e ∈ boot_completed_actions cfg) (reqs : List (Env × Nat)) :
    ∀ l : Latches,
      (run_report_events cfg K reqs l).2.count e =
        (if l.boot_complete_lock = false ∧
            reqs.any (reports_event K.EVENT_BOOT_COMPLETED) = true then 1 else 0) ∧
      (run_report_events cfg K reqs l).1.boot_complete_lock =
        (l.boot_complete_lock || reqs.any (reports_event K.EVENT_BOOT_COMPLETED)) := by
  induction reqs with
  | nil => intro l; simp [run_report_events]
  | cons r rest ih =>
    intro l
    obtain ⟨env, arg⟩ := r
    obtain ⟨s1, s2⟩ := do_report_event_boot_completed cfg K hK env arg l e he
    obtain ⟨i1, i2⟩ := ih (do_report_event cfg K env arg l).2.1
    constructor
    · have hc : (run_report_events cfg K ((env, arg) :: rest) l).2.count e =
          (do_report_event cfg K env arg l).2.2.count e +
            (run_report_events cfg K rest (do_report_event cfg K env arg l).2.1).2.count e := by
        simp [run_report_events, List.count_append]
      rw [hc, s1, i1, s2, List.any_cons]
      exact latch_arith _ _ _
    · show (run_report_events cfg K rest (do_report_event cfg K env arg l).2.1).1.boot_complete_lock = _
      rw [i2, s2, List.any_cons, Bool.or_assoc]

/-- A readable report of the post-fs-data event: result, latches and calls. -/
theorem do_report_event_post_eval (cfg : Config) (K : Consts) (env : Env) (arg : Nat)
    (l : Latches) (h : reports_event K.EVENT_POST_FS_DATA (env, arg) = true) :
    do_report_event cfg K env arg l =
      if l.post_fs_data_lock = false then
        (0, { l with post_fs_data_lock := true }, post_fs_data_actions cfg)
      else (0, l, []) := by
  unfold reports_event at h
  unfold do_report_event
  cases hcmd : env.report_event_cmd_at arg with
  | none => rw [hcmd] at h; exact absurd h (by simp)
  | some cmd =>
    rw [hcmd] at h
    have h1 : cmd.event = K.EVENT_POST_FS_DATA := of_decide_eq_true h
    simp only
    rw [if_pos h1]

/-- Every call made while handling a request is a call of one of the two
initialization blocks or the module-mounted call. -/
theorem do_report_event_members (cfg : Config) (K : Consts) (env : Env) (arg : Nat)
    (l : Latches) :
    ∀ ev ∈ (do_report_event cfg K env arg l).2.2,
      ev ∈ post_fs_data_actions cfg ∨ ev ∈ boot_completed_actions cfg ∨
        ev = Event.on_module_mounted := by
  unfold do_report_event
  cases env.report_event_cmd_at arg with
  | none => intro ev hev; simp at hev
  | some cmd =>
    simp only
    split_ifs
    · intro ev hev; exact Or.inl hev
    · intro ev hev; simp at hev
    · intro ev hev; exact Or.inr (Or.inl hev)
    · intro ev hev; simp at hev
    · intro ev hev; simp at hev; exact Or.inr (Or.inr hev)
    · intro ev hev; simp at hev

theorem run_report_events_members (cfg : Config) (K : Consts) (reqs : List (Env × Nat)) :
    ∀ (l : Latches), ∀ ev ∈ (run_report_events cfg K reqs l).2,
      ev ∈ post_fs_data_actions cfg ∨ ev ∈ boot_completed_actions cfg ∨
        ev = Event.on_module_mounted := by
  induction reqs with
  | nil => intro l ev hev; simp [run_report_events] at hev
  | cons r rest ih =>
    intro l ev hev
    obtain ⟨env, arg⟩ := r
    have hmem : ev ∈ (do_report_event cfg K env arg l).2.2 ++
        (run_report_events cfg K rest (do_report_event cfg K env arg l).2.1).2 := hev
    rcases List.mem_append.1 hmem with h | h
    · exact do_report_event_members cfg K env arg l ev h
    · exact ih _ ev h

/-- From the initial latches, a call of the post-fs-data block is made once
when some request reports post-fs-data, and never otherwise. -/
theorem count_post_action_initial (cfg : Config) (K : Consts) (e : Event)
    (he : e ∈ post_fs_data_actions cfg) (reqs : List (Env × Nat)) :
    (run_report_events cfg K reqs Latches.initial).2.count e =
      if reqs.any (reports_event K.EVENT_POST_FS_DATA) = true then 1 else 0 := by
  rw [(run_report_events_post_fs_data cfg K e he reqs Latches.initial).1]
  by_cases h : reqs.any (reports_event K.EVENT_POST_FS_DATA) = true
  · rw [if_pos ⟨rfl, h⟩, if_pos h]
  · rw [if_neg (fun x => h x.2), if_neg h]

/-- From the initial latches, a call of the boot-completed block is made once
when some request reports boot-completed, and never otherwise. -/
theorem count_boot_action_initial (cfg : Config) (K : Consts) (hK : K.events_distinct)
    (e : Event) (he : e ∈ boot_completed_actions cfg) (reqs : List (Env × Nat)) :
    (run_report_events cfg K reqs Latches.initial).2.count e =
      if reqs.any (reports_event K.EVENT_BOOT_COMPLETED) = true then 1 else 0 := by
  rw [(run_report_events_boot_completed cfg K hK e he reqs Latches.initial).1]
  by_cases h : reqs.any (reports_event K.EVENT_BOOT_COMPLETED) = true
  · rw [if_pos ⟨rfl, h⟩, if_pos h]
  · rw [if_neg (fun x => h x.2), if_neg h]

/-- C8: over any sequence of report-event requests handled one after another
from the initial latches, `on_post_fs_data` and `ksu_dynamic_manager_init`
(and `ksu_sulog_init` when the log gate is compiled in) are each called
exactly once when some request reports post-fs-data and never otherwise;
`on_boot_completed` (and `susfs_start_sdcard_monitor_fn` under
`CONFIG_KSU_SUSFS`) likewise for boot-completed; the latches end up set
exactly for the kinds reported.  A post-fs-data report on the unset latch
makes those calls in source order, and the second of two post-fs-data reports
returns 0, leaves the latch set and makes no call. -/
theorem report_event_runs_once (cfg : Config) (K : Consts) (hK : K.events_distinct) :
    (∀ reqs : List (Env × Nat),
      (run_report_events cfg K reqs Latches.initial).2.count Event.on_post_fs_data =
        (if reqs.any (reports_event K.EVENT_POST_FS_DATA) = true then 1 else 0) ∧
      (run_report_events cfg K reqs Latches.initial).2.count Event.ksu_dynamic_manager_init =
        (if reqs.any (reports_event K.EVENT_POST_FS_DATA) = true then 1 else 0) ∧
      (run_report_events cfg K reqs Latches.initial).2.count Event.ksu_sulog_init =
        (if cfg.SULOG_GATE = true ∧ reqs.any (reports_event K.EVENT_POST_FS_DATA) = true
          then 1 else 0) ∧
      (run_report_events cfg K reqs Latches.initial).2.count Event.on_boot_completed =
        (if reqs.any (reports_event K.EVENT_BOOT_COMPLETED) = true then 1 else 0) ∧
      (run_report_events cfg K reqs Latches.initial).2.count
          Event.susfs_start_sdcard_monitor_fn =
        (if cfg.CONFIG_KSU_SUSFS = true ∧ reqs.any (reports_event K.EVENT_BOOT_COMPLETED) = true
          then 1 else 0) ∧
      (run_report_events cfg K reqs Latches.initial).1.post_fs_data_lock =
        reqs.any (reports_event K.EVENT_POST_FS_DATA) ∧
      (run_report_events cfg K reqs Latches.initial).1.boot_complete_lock =
        reqs.any (reports_event K.EVENT_BOOT_COMPLETED)) ∧
    (∀ (env1 env2 : Env) (arg1 arg2 : Nat) (l : Latches),
      reports_event K.EVENT_POST_FS_DATA (env1, arg1) = true →
      reports_event K.EVENT_POST_FS_DATA (env2, arg2) = true →
      (l.post_fs_data_lock = false →
        do_report_event cfg K env1 arg1 l =
          (0, { l with post_fs_data_lock := true },
            [Event.on_post_fs_data] ++ (if cfg.SULOG_GATE then [Event.ksu_sulog_init] else []) ++
              [Event.ksu_dynamic_manager_init])) ∧
      (do_report_event cfg K env1 arg1 l).2.1.post_fs_data_lock = true ∧
        do_report_event cfg K env2 arg2 (do_report_event cfg K env1 arg1 l).2.1 =
          (0, (do_report_event cfg K env1 arg1 l).2.1, [])) := by
  constructor
  · intro reqs
    refine ⟨?_, ?_, ?_, ?_, ?_, ?_, ?_⟩
    · exact count_post_action_initial cfg K _ (by simp [post_fs_data_actions]) reqs
    · exact count_post_action_initial cfg K _ (by simp [post_fs_data_actions]) reqs
    · cases hg : cfg.SULOG_GATE
      · have hnot : Event.ksu_sulog_init ∉ (run_report_events cfg K reqs Latches.initial).2 := by
          intro hm
          rcases run_report_events_members cfg K reqs _ _ hm with h | h | h
          · simp [post_fs_data_actions, hg] at h
          · unfold boot_completed_actions at h
            cases cfg.CONFIG_KSU_SUSFS <;> simp at h
          · exact Event.noConfusion h
        rw [List.count_eq_zero.2 hnot]
        simp [hg]
      · rw [count_post_action_initial cfg K _ (by simp [post_fs_data_actions, hg]) reqs]
        by_cases h : reqs.any (reports_event K.EVENT_POST_FS_DATA) = true
        · rw [if_pos h, if_pos ⟨rfl, h⟩]
        · rw [if_neg h, if_neg (fun x => h x.2)]
    · exact count_boot_action_initial cfg K hK _ (by simp [boot_completed_actions]) reqs
    · cases hg : cfg.CONFIG_KSU_SUSFS
      · have hnot : Event.susfs_start_sdcard_monitor_fn ∉
            (run_report_events cfg K reqs Latches.initial).2 := by
          intro hm
          rcases run_report_events_members cfg K reqs _ _ hm with h | h | h
          · unfold post_fs_data_actions at h
            cases cfg.SULOG_GATE <;> simp at h
          · simp [boot_completed_actions, hg] at h
          · exact Event.noConfusion h
        rw [List.count_eq_zero.2 hnot]
        simp [hg]
      · rw [count_boot_action_initial cfg K hK _ (by simp [boot_completed_actions, hg]) reqs]
        by_cases h : reqs.any (reports_event K.EVENT_BOOT_COMPLETED) = true
        · rw [if_pos h, if_pos ⟨rfl, h⟩]
        · rw [if_neg h, if_neg (fun x => h x.2)]
    · rw [(run_report_events_post_fs_data cfg K Event.on_post_fs_data
        (by simp [post_fs_data_actions]) reqs Latches.initial).2]
      simp [Latches.initial]
    · rw [(run_report_events_boot_completed cfg K hK Event.on_boot_completed
        (by simp [boot_completed_actions]) reqs Latches.initial).2]
      simp [Latches.initial]
  · intro env1 env2 arg1 arg2 l h1 h2
    have e1 := do_report_event_post_eval cfg K env1 arg1 l h1
    have hlock : (do_report_event cfg K env1 arg1 l).2.1.post_fs_data_lock = true := by
      rw [e1]
      cases hl : l.post_fs_data_lock <;> simp [hl]
    refine ⟨?_, hlock, ?_⟩
    · intro hl
      rw [e1, if_pos hl]
      rfl
    · rw [do_report_event_post_eval cfg K env2 arg2 _ h2, hlock]
      simp

theorem report_event_runs_once_witness :
    (run_report_events sample_config sample_consts
        [(sample_env 0 0 3, 8), (sample_env 0 0 1, 8), (sample_env 0 0 2, 8),
          (sample_env 0 0 1, 8), (sample_env 0 0 2, 8)]
        Latches.initial).2.count Event.on_post_fs_data = 1 ∧
      (run_report_events sample_config sample_consts
        [(sample_env 0 0 3, 8), (sample_env 0 0 1, 8), (sample_env 0 0 2, 8),
          (sample_env 0 0 1, 8), (sample_env 0 0 2, 8)]
        Latches.initial).2.count Event.on_boot_completed = 1 ∧
      (run_report_events sample_config sample_consts
        [(sample_env 0 0 3, 8), (sample_env 0 0 3, 8)]
        Latches.initial).2.count Event.on_boot_completed = 0 := by
  have h := (report_event_runs_once sample_config sample_consts (by decide)).1
    [(sample_env 0 0 3, 8), (sample_env 0 0 1, 8), (sample_env 0 0 2, 8),
      (sample_env 0 0 1, 8), (sample_env 0 0 2, 8)]
  have h0 := (report_event_runs_once sample_config sample_consts (by decide)).1
    [(sample_env 0 0 3, 8), (sample_env 0 0 3, 8)]
  exact ⟨h.1, h.2.2.2.1, h0.2.2.2.1⟩

/-! ## The dispatcher: properties -/

/-- The loop on an opcode that no reachable row carries. -/
theorem ioctl_loop_unsupported {σ : Type} (cfg : Config) (K : Consts) (X : Externals σ)
    (c : Caller) (env : Env) (cmd argp : Nat) (w : World σ) :
    ∀ tbl : List ksu_ioctl_cmd_map, (∀ e ∈ real_entries tbl, e.cmd ≠ cmd) →
      ioctl_loop cfg K X c env cmd argp tbl w = (-ENOTTY, w) := by
  intro tbl
  induction tbl with
  | nil => intro _; rfl
  | cons e rest ih =>
    intro h
    unfold ioctl_loop
    cases hh : e.handler with
    | none => rfl
    | some hd =>
      have hreal : real_entries (e :: rest) = e :: real_entries rest := by
        simp [real_entries, List.takeWhile_cons, hh]
      rw [hreal] at h
      have hne : ¬ cmd = e.cmd := fun heq => h e (List.mem_cons_self _ _) heq.symm
      simp only
      rw [if_neg hne]
      exact ih (fun e2 he2 => h e2 (List.mem_cons_of_mem _ he2))

/-- The loop on an opcode whose first reachable row is `e`: the permission
check of `e` decides between the denial and the handler call. -/
theorem ioctl_loop_found {σ : Type} (cfg : Config) (K : Consts) (X : Externals σ)
    (c : Caller) (env : Env) (cmd argp : Nat) (w : World σ) (e : ksu_ioctl_cmd_map) :
    ∀ tbl : List ksu_ioctl_cmd_map, find_entry tbl cmd = some e →
      ∃ h, e.handler = some h ∧
        ioctl_loop cfg K X c env cmd argp tbl w =
          if perm_value cfg e c = false then
            (-EPERM, ksu_ioctl_audit cfg cmd e.name c.uid (-EPERM)
              { w with trace := w.trace ++ perm_events cfg e c })
          else
            ((call_handler cfg K X h c env argp
                { w with trace := w.trace ++ perm_events cfg e c ++
                    [Event.handler_call h argp] }).1,
              ksu_ioctl_audit cfg cmd e.name c.uid
                (call_handler cfg K X h c env argp
                  { w with trace := w.trace ++ perm_events cfg e c ++
                      [Event.handler_call h argp] }).1
                (call_handler cfg K X h c env argp
                  { w with trace := w.trace ++ perm_events cfg e c ++
                      [Event.handler_call h argp] }).2) := by
  intro tbl
  induction tbl with
  | nil => intro h; simp [find_entry, real_entries] at h
  | cons e0 rest ih =>
    intro hfind
    cases hh : e0.handler with
    | none => simp [find_entry, real_entries, List.takeWhile_cons, hh] at hfind
    | some hd =>
      have hreal : real_entries (e0 :: rest) = e0 :: real_entries rest := by
        simp [real_entries, List.takeWhile_cons, hh]
      by_cases hc : cmd = e0.cmd
      · have he : e0 = e := by
          simpa [find_entry, hreal, List.find?_cons, hc] using hfind
        subst he
        refine ⟨hd, hh, ?_⟩
        unfold ioctl_loop
        rw [hh]
        simp only
        rw [if_pos hc]
        cases hp : e0.perm_check with
        | none => simp [perm_value, perm_events, hp]
        | some pc =>
          cases hv : (call_perm cfg pc c).1 <;>
            simp [perm_value, perm_events, hp, hv, List.append_assoc]
      · have hrest : find_entry rest cmd = some e := by
          simpa [find_entry, hreal, List.find?_cons, hc] using hfind
        obtain ⟨h, h1, h2⟩ := ih hrest
        refine ⟨h, h1, ?_⟩
        rw [← h2]
        conv_lhs => unfold ioctl_loop
        rw [hh]
        simp only
        rw [if_neg hc]

theorem perm_events_no_handler_call (cfg : Config) (e : ksu_ioctl_cmd_map) (c : Caller) :
    ∀ ev ∈ perm_events cfg e c, ev.is_handler_call = false := by
  intro ev hev
  unfold perm_events at hev
  cases hp : e.perm_check with
  | none => rw [hp] at hev; simp at hev
  | some pc =>
    rw [hp] at hev
    cases pc <;> cases hg : cfg.SULOG_GATE <;>
      simp [call_perm, allowed_for_su, hg] at hev <;>
      first
        | (subst hev; rfl)
        | (rcases hev with rfl | rfl <;> rfl)

theorem do_report_event_no_handler_call (cfg : Config) (K : Consts) (env : Env) (arg : Nat)
    (l : Latches) : ∀ ev ∈ (do_report_event cfg K env arg l).2.2, ev.is_handler_call = false := by
  have hp : ∀ ev ∈ post_fs_data_actions cfg, ev.is_handler_call = false := by
    unfold post_fs_data_actions; cases cfg.SULOG_GATE <;> decide
  have hb : ∀ ev ∈ boot_completed_actions cfg, ev.is_handler_call = false := by
    unfold boot_completed_actions; cases cfg.CONFIG_KSU_SUSFS <;> decide
  unfold do_report_event
  cases env.report_event_cmd_at arg with
  | none => intro ev hev; simp at hev
  | some cmd =>
    simp only
    split_ifs
    · exact hp
    · intro ev hev; simp at hev
    · exact hb
    · intro ev hev; simp at hev
    · intro ev hev; simp at hev; subst hev; rfl
    · intro ev hev; simp at hev

/-- A handler call leaves earlier records in place and adds no
`handler_call` mark of its own. -/
theorem call_handler_trace {σ : Type} (cfg : Config) (K : Consts) (X : Externals σ)
    (h : Handler) (c : Caller) (env : Env) (argp : Nat) (w : World σ) :
    ∃ evs, (call_handler cfg K X h c env argp w).2.trace = w.trace ++ evs ∧
      ∀ ev ∈ evs, ev.is_handler_call = false := by
  cases h
  case do_report_event =>
    exact ⟨(do_report_event cfg K env argp w.latches).2.2, rfl,
      do_report_event_no_handler_call cfg K env argp w.latches⟩
  all_goals exact ⟨[], by simp [call_handler], by intro ev hev; simp at hev⟩

theorem audit_trace {σ : Type} (cfg : Config) (cmd : Nat) (name : Option String) (uid : Nat)
    (ret : Int) (w : World σ) :
    (ksu_ioctl_audit cfg cmd name uid ret w).trace.filter Event.is_handler_call =
      w.trace.filter Event.is_handler_call := by
  unfold ksu_ioctl_audit
  cases cfg.SULOG_GATE <;> simp [List.filter_append, List.filter_cons, Event.is_handler_call]

theorem filter_eq_nil_of_all_false (evs : List Event)
    (h : ∀ ev ∈ evs, ev.is_handler_call = false) : evs.filter Event.is_handler_call = [] := by
  rw [List.filter_eq_nil_iff]
  intro ev hev
  rw [h ev hev]
  exact Bool.false_ne_true

/-- C1: an opcode carried by no row that has a handler (the sentinel's own
opcode 0 included, when no such row uses it) gets `-ENOTTY` from the
dispatcher for every caller, and the world is returned untouched: no
permission check was evaluated, no handler invoked, no audit call made. -/
theorem unsupported_command {σ : Type} (cfg : Config) (K : Consts) (O : Opcodes)
    (X : Externals σ) (c : Caller) (env : Env) (cmd arg : Nat) (w : World σ)
    (h : ∀ e ∈ ksu_ioctl_handlers cfg O, e.handler ≠ none → e.cmd ≠ cmd) :
    anon_ksu_ioctl cfg K O X c env cmd arg w = (-ENOTTY, w) := by
  apply ioctl_loop_unsupported cfg K X c env cmd arg w
  intro e he
  have hmem : e ∈ ksu_ioctl_handlers cfg O := (List.takeWhile_sublist _).subset he
  have hsome : (fun r : ksu_ioctl_cmd_map => r.handler.isSome) e = true :=
    @List.mem_takeWhile_imp _ (fun r : ksu_ioctl_cmd_map => r.handler.isSome) _ e he
  apply h e hmem
  intro hn
  simp only [hn] at hsome
  exact Bool.noConfusion hsome

theorem unsupported_command_witness :
    anon_ksu_ioctl sample_config sample_consts sample_opcodes sample_externals sample_root
        (sample_env 0 0 0) 0 16 sample_world = (-25, sample_world) :=
  unsupported_command sample_config sample_consts sample_opcodes sample_externals sample_root
    (sample_env 0 0 0) 0 16 sample_world (by decide)

/-- C2: when the row selected for the opcode has a permission check that is
false for the caller, the dispatcher returns `-EPERM`, the mount registry,
the latches and the collaborators' state are as before, and the records it
added contain no handler invocation. -/
theorem permission_denied {σ : Type} (cfg : Config) (K : Consts) (O : Opcodes)
    (X : Externals σ) (c : Caller) (env : Env) (cmd arg : Nat) (w : World σ)
    (e : ksu_ioctl_cmd_map) (hfind : find_entry (ksu_ioctl_handlers cfg O) cmd = some e)
    (hperm : perm_value cfg e c = false) :
    (anon_ksu_ioctl cfg K O X c env cmd arg w).1 = -EPERM ∧
      (anon_ksu_ioctl cfg K O X c env cmd arg w).2.mount_list = w.mount_list ∧
      (anon_ksu_ioctl cfg K O X c env cmd arg w).2.latches = w.latches ∧
      (anon_ksu_ioctl cfg K O X c env cmd arg w).2.ext = w.ext ∧
      ∃ evs, (anon_ksu_ioctl cfg K O X c env cmd arg w).2.trace = w.trace ++ evs ∧
        ∀ ev ∈ evs, ev.is_handler_call = false := by
  obtain ⟨h, _, hloop⟩ := ioctl_loop_found cfg K X c env cmd arg w e _ hfind
  unfold anon_ksu_ioctl
  rw [hloop, if_pos hperm]
  refine ⟨rfl, rfl, rfl, rfl, ?_⟩
  refine ⟨perm_events cfg e c ++ ([Event.ioctl_audit cmd e.name c.uid (-EPERM)] ++
    (if cfg.SULOG_GATE then
      [Event.ksu_sulog_report_syscall c.uid e.name (audit_result (-EPERM))] else [])), ?_, ?_⟩
  · simp [ksu_ioctl_audit, List.append_assoc]
  · intro ev hev
    rcases List.mem_append.1 hev with h1 | h1
    · exact perm_events_no_handler_call cfg e c ev h1
    · cases hg : cfg.SULOG_GATE <;> simp [hg] at h1
      · subst h1; rfl
      · rcases h1 with rfl | rfl <;> rfl

theorem permission_denied_witness :
    (anon_ksu_ioctl sample_config sample_consts sample_opcodes sample_externals sample_app
        (sample_env 0 0 1) 103 8 sample_world).1 = -1 ∧
      (anon_ksu_ioctl sample_config sample_consts sample_opcodes sample_externals sample_app
        (sample_env 0 0 1) 103 8 sample_world).2.latches = Latches.initial := by
  have h := permission_denied sample_config sample_consts sample_opcodes sample_externals
    sample_app (sample_env 0 0 1) 103 8 sample_world
    { cmd := 103, name := some "REPORT_EVENT", handler := some Handler.do_report_event,
      perm_check := some Perm.only_root } (by decide) (by decide)
  exact ⟨h.1, h.2.2.1⟩

/-- C3: when the row selected for the opcode lets the caller through, the
dispatcher calls that row's handler once, on the caller's argument pointer,
and returns the handler's result code, whatever the code; the audit call that
follows receives that code and changes neither it nor the registry, latches
or collaborators' state the handler left. -/
theorem handler_result_returned {σ : Type} (cfg : Config) (K : Consts) (O : Opcodes)
    (X : Externals σ) (c : Caller) (env : Env) (cmd arg : Nat) (w : World σ)
    (e : ksu_ioctl_cmd_map) (hfind : find_entry (ksu_ioctl_handlers cfg O) cmd = some e)
    (hperm : perm_value cfg e c = true) :
    ∃ h, e.handler = some h ∧
      (anon_ksu_ioctl cfg K O X c env cmd arg w).1 =
        (call_handler cfg K X h c env arg
          { w with trace := w.trace ++ perm_events cfg e c ++ [Event.handler_call h arg] }).1 ∧
      (anon_ksu_ioctl cfg K O X c env cmd arg w).2 =
        ksu_ioctl_audit cfg cmd e.name c.uid
          (call_handler cfg K X h c env arg
            { w with trace := w.trace ++ perm_events cfg e c ++ [Event.handler_call h arg] }).1
          (call_handler cfg K X h c env arg
            { w with trace := w.trace ++ perm_events cfg e c ++ [Event.handler_call h arg] }).2 ∧
      (anon_ksu_ioctl cfg K O X c env cmd arg w).2.trace.filter Event.is_handler_call =
        w.trace.filter Event.is_handler_call ++ [Event.handler_call h arg] := by
  obtain ⟨h, hh, hloop⟩ := ioctl_loop_found cfg K X c env cmd arg w e _ hfind
  have hne : ¬ perm_value cfg e c = false := by rw [hperm]; exact Bool.noConfusion
  refine ⟨h, hh, ?_, ?_, ?_⟩
  · unfold anon_ksu_ioctl; rw [hloop, if_neg hne]
  · unfold anon_ksu_ioctl; rw [hloop, if_neg hne]
  · unfold anon_ksu_ioctl
    rw [hloop, if_neg hne]
    simp only
    rw [audit_trace]
    obtain ⟨evs, ht, hno⟩ := call_handler_trace cfg K X h c env arg
      { w with trace := w.trace ++ perm_events cfg e c ++ [Event.handler_call h arg] }
    rw [ht]
    simp only [List.filter_append]
    rw [filter_eq_nil_of_all_false evs hno,
      filter_eq_nil_of_all_false _ (perm_events_no_handler_call cfg e c)]
    simp [List.filter_cons, Event.is_handler_call]

theorem handler_result_returned_witness :
    anon_ksu_ioctl sample_config sample_consts sample_opcodes sample_externals sample_root
        (sample_env 0 0 1) 104 8 sample_world =
      (7, { sample_world with trace :=
        [Event.perm_check Perm.only_root, Event.handler_call Handler.do_set_sepolicy 8,
          Event.ioctl_audit 104 (some "SET_SEPOLICY") 0 7,
          Event.ksu_sulog_report_syscall 0 (some "SET_SEPOLICY") "FAILED"] }) := by
  obtain ⟨h, hh, h1, h2, _⟩ := handler_result_returned sample_config sample_consts
    sample_opcodes sample_externals sample_root (sample_env 0 0 1) 104 8 sample_world
    { cmd := 104, name := some "SET_SEPOLICY", handler := some Handler.do_set_sepolicy,
      perm_check := some Perm.only_root } (by decide) (by decide)
  cases hh
  exact Prod.ext h1 h2

/-! ## The side channel: properties -/

/-- With a first magic other than the install magic the function returns
`-EINVAL` and leaves the task as it was: nothing allocated, nothing queued,
no extension function called. -/
theorem ksu_handle_sys_reboot_wrong_magic1 (cfg : Config) (K : Consts) (S : SusfsCmds)
    (renv : RebootEnv) (uid : Nat) (magic1 magic2 : Int) (cmd arg4 : Nat) (p : Proc)
    (h : magic1 ≠ K.KSU_INSTALL_MAGIC1) :
    ksu_handle_sys_reboot cfg K S renv uid magic1 magic2 cmd arg4 p = (-EINVAL, p) := by
  unfold ksu_handle_sys_reboot
  rw [if_pos h]

/-- With the install magic first and a second magic that is neither the
install handshake nor the extension magic the function returns 0 and leaves
the task as it was. -/
theorem ksu_handle_sys_reboot_unknown_magic2 (cfg : Config) (K : Consts) (S : SusfsCmds)
    (renv : RebootEnv) (uid : Nat) (magic1 magic2 : Int) (cmd arg4 : Nat) (p : Proc)
    (h1 : magic1 = K.KSU_INSTALL_MAGIC1) (h2 : magic2 ≠ K.KSU_INSTALL_MAGIC2)
    (h3 : magic2 ≠ K.SUSFS_MAGIC) :
    ksu_handle_sys_reboot cfg K S renv uid magic1 magic2 cmd arg4 p = (0, p) := by
  unfold ksu_handle_sys_reboot
  rw [if_neg (not_not.2 h1), if_neg h2, if_neg (fun hc => h3 hc.2.1)]

/-- C9, the code on an ordinary reboot call: its first magic is not the
install magic, the kprobe pre-handler queues nothing and calls no extension
function, but the value it hands back is `-EINVAL` (`-22`), not the 0 that the
neighbouring no-match path (install magic first, unknown second magic) hands
back for the same untouched task.  A kprobe pre-handler that returns non-zero
tells kprobes that it redirected execution, so the probed call is not resumed
as usual. -/
theorem reboot_wrong_magic_hands_back_einval :
    reboot_handler_pre sample_config sample_consts sample_susfs_cmds sample_reboot_env 0
        plain_reboot_regs sample_proc = (-22, sample_proc) ∧
      (reboot_handler_pre sample_config sample_consts sample_susfs_cmds sample_reboot_env 0
        plain_reboot_regs sample_proc).1 ≠ 0 ∧
      reboot_handler_pre sample_config sample_consts sample_susfs_cmds sample_reboot_env 0
        unknown_magic2_regs sample_proc = (0, sample_proc) := by
  have e1 : reboot_handler_pre sample_config sample_consts sample_susfs_cmds sample_reboot_env 0
      plain_reboot_regs sample_proc = (-22, sample_proc) :=
    ksu_handle_sys_reboot_wrong_magic1 _ _ _ _ _ _ _ _ _ _ (by decide)
  refine ⟨e1, ?_, ?_⟩
  · rw [e1]; decide
  · exact ksu_handle_sys_reboot_unknown_magic2 _ _ _ _ _ _ _ _ _ _ (by decide) (by decide)
      (by decide)

theorem susfs_dispatch_no_match (cmd arg : Nat) :
    ∀ chain : List (Bool × Nat × SusfsOp),
      (∀ row ∈ chain, row.1 = true → row.2.1 ≠ cmd) → susfs_dispatch cmd arg chain = [] := by
  intro chain
  induction chain with
  | nil => intro _; rfl
  | cons row rest ih =>
    intro h
    obtain ⟨enabled, k, op⟩ := row
    have hrow : ¬ (enabled = true ∧ cmd = k) := fun hc =>
      h (enabled, k, op) (List.mem_cons_self _ _) hc.1 hc.2.symm
    unfold susfs_dispatch
    rw [if_neg hrow]
    exact ih (fun r hr => h r (List.mem_cons_of_mem _ hr))

/-- C11: a caller whose uid is not 0 never gets an extension function called,
whatever the magics and the sub-opcode, and with the install magic first and
the extension magic second the call returns 0 for such a caller; with those
magics a sub-opcode that no compiled-in statement of the chain tests calls no
extension function and returns 0, for root as for anyone. -/
theorem extension_root_only (cfg : Config) (K : Consts) (S : SusfsCmds) (renv : RebootEnv)
    (uid : Nat) (magic1 magic2 : Int) (cmd arg4 : Nat) (p : Proc) :
    (uid ≠ 0 →
      (ksu_handle_sys_reboot cfg K S renv uid magic1 magic2 cmd arg4 p).2.trace.filter
          Event.is_susfs = p.trace.filter Event.is_susfs) ∧
    (magic1 = K.KSU_INSTALL_MAGIC1 → magic2 = K.SUSFS_MAGIC → uid ≠ 0 →
      (ksu_handle_sys_reboot cfg K S renv uid magic1 magic2 cmd arg4 p).1 = 0) ∧
    (magic1 = K.KSU_INSTALL_MAGIC1 → magic2 = K.SUSFS_MAGIC →
      (∀ row ∈ susfs_chain cfg S, row.1 = true → row.2.1 ≠ cmd) →
      (ksu_handle_sys_reboot cfg K S renv uid magic1 magic2 cmd arg4 p).1 = 0 ∧
        (ksu_handle_sys_reboot cfg K S renv uid magic1 magic2 cmd arg4 p).2.trace.filter
          Event.is_susfs = p.trace.filter Event.is_susfs) := by
  have hinstall : ∀ q : Int × Proc,
      q = (if renv.kzalloc_ok = false then (0, p)
        else if renv.task_work_add_ok = true then
          (0, { p with task_works := { outp := arg4 } :: p.task_works,
                       trace := p.trace ++ [Event.kzalloc_tw] })
        else (0, { p with trace := p.trace ++ [Event.kzalloc_tw] ++ [Event.kfree_tw] })) →
      q.1 = 0 ∧ q.2.trace.filter Event.is_susfs = p.trace.filter Event.is_susfs := by
    intro q hq
    subst hq
    cases renv.kzalloc_ok <;> cases renv.task_work_add_ok <;>
      simp [List.filter_append, List.filter_cons, Event.is_susfs]
  refine ⟨?_, ?_, ?_⟩
  · intro hu
    unfold ksu_handle_sys_reboot
    by_cases h1 : magic1 ≠ K.KSU_INSTALL_MAGIC1
    · rw [if_pos h1]
    · rw [if_neg h1]
      by_cases h2 : magic2 = K.KSU_INSTALL_MAGIC2
      · rw [if_pos h2]
        exact (hinstall _ rfl).2
      · rw [if_neg h2, if_neg (fun hc => hu hc.2.2)]
  · intro h1 _ hu
    unfold ksu_handle_sys_reboot
    rw [if_neg (not_not.2 h1)]
    by_cases h2 : magic2 = K.KSU_INSTALL_MAGIC2
    · rw [if_pos h2]
      exact (hinstall _ rfl).1
    · rw [if_neg h2, if_neg (fun hc => hu hc.2.2)]
  · intro h1 _ hno
    unfold ksu_handle_sys_reboot
    rw [if_neg (not_not.2 h1)]
    by_cases h2 : magic2 = K.KSU_INSTALL_MAGIC2
    · rw [if_pos h2]
      exact hinstall _ rfl
    · rw [if_neg h2]
      by_cases h3 : cfg.CONFIG_KSU_SUSFS = true ∧ magic2 = K.SUSFS_MAGIC ∧ uid = 0
      · rw [if_pos h3, susfs_dispatch_no_match cmd arg4 _ hno]
        simp
      · rw [if_neg h3]
        exact ⟨rfl, rfl⟩

theorem extension_root_only_witness :
    (ksu_handle_sys_reboot sample_config sample_consts sample_susfs_cmds sample_reboot_env
        10123 (-559038737) (-84215046) 201 4096 sample_proc).2.trace.filter Event.is_susfs = [] ∧
      (ksu_handle_sys_reboot sample_config sample_consts sample_susfs_cmds sample_reboot_env
        0 (-559038737) (-84215046) 999 4096 sample_proc).1 = 0 ∧
      (ksu_handle_sys_reboot sample_config sample_consts sample_susfs_cmds sample_reboot_env
        0 (-559038737) (-84215046) 201 4096 sample_proc).2.trace =
          [Event.susfs SusfsOp.susfs_add_sus_path 4096] := by
  refine ⟨?_, ?_, rfl⟩
  · exact (extension_root_only sample_config sample_consts sample_susfs_cmds sample_reboot_env
      10123 (-559038737) (-84215046) 201 4096 sample_proc).1 (by decide)
  · exact ((extension_root_only sample_config sample_consts sample_susfs_cmds sample_reboot_env
      0 (-559038737) (-84215046) 999 4096 sample_proc).2.2 rfl rfl (by decide)).1

/-! ## The audit of the dispatcher: properties -/

theorem do_report_event_calls (cfg : Config) (K : Consts) (env : Env) (arg : Nat)
    (l : Latches) : ∀ ev ∈ (do_report_event cfg K env arg l).2.2, ev ∈ lifecycle_calls := by
  have hp : ∀ ev ∈ post_fs_data_actions cfg, ev ∈ lifecycle_calls := by
    unfold post_fs_data_actions lifecycle_calls; cases cfg.SULOG_GATE <;> decide
  have hb : ∀ ev ∈ boot_completed_actions cfg, ev ∈ lifecycle_calls := by
    unfold boot_completed_actions lifecycle_calls; cases cfg.CONFIG_KSU_SUSFS <;> decide
  unfold do_report_event
  cases env.report_event_cmd_at arg with
  | none => intro ev hev; simp at hev
  | some cmd =>
    simp only
    split_ifs
    · exact hp
    · intro ev hev; simp at hev
    · exact hb
    · intro ev hev; simp at hev
    · intro ev hev; simp at hev; subst hev; decide
    · intro ev hev; simp at hev

/-- What a handler call adds to the record are calls of `do_report_event`
only. -/
theorem call_handler_calls {σ : Type} (cfg : Config) (K : Consts) (X : Externals σ)
    (h : Handler) (c : Caller) (env : Env) (argp : Nat) (w : World σ) :
    ∃ evs, (call_handler cfg K X h c env argp w).2.trace = w.trace ++ evs ∧
      ∀ ev ∈ evs, ev ∈ lifecycle_calls := by
  cases h
  case do_report_event =>
    exact ⟨(do_report_event cfg K env argp w.latches).2.2, rfl,
      do_report_event_calls cfg K env argp w.latches⟩
  all_goals exact ⟨[], by simp [call_handler], by intro ev hev; simp at hev⟩

theorem perm_events_not_audit (cfg : Config) (e : ksu_ioctl_cmd_map) (c : Caller) :
    ∀ ev ∈ perm_events cfg e c, ev.is_ioctl_audit = false ∧ ev.is_syscall_report = false := by
  intro ev hev
  unfold perm_events at hev
  cases hp : e.perm_check with
  | none => rw [hp] at hev; simp at hev
  | some pc =>
    rw [hp] at hev
    cases pc <;> cases hg : cfg.SULOG_GATE <;>
      simp [call_perm, allowed_for_su, hg] at hev <;>
      first
        | (subst hev; exact ⟨rfl, rfl⟩)
        | (rcases hev with rfl | rfl <;> exact ⟨rfl, rfl⟩)

theorem lifecycle_calls_not_audit :
    ∀ ev ∈ lifecycle_calls, ev.is_ioctl_audit = false ∧ ev.is_syscall_report = false := by
  decide

theorem filter_eq_nil_of_forall_false (f : Event → Bool) (evs : List Event)
    (h : ∀ ev ∈ evs, f ev = false) : evs.filter f = [] := by
  rw [List.filter_eq_nil_iff]
  intro ev hev
  rw [h ev hev]
  exact Bool.false_ne_true

/-- The audit function adds one call mark, and one record when the log gate
is compiled in. -/
theorem audit_adds {σ : Type} (cfg : Config) (cmd : Nat) (name : Option String) (uid : Nat)
    (ret : Int) (w : World σ) :
    (ksu_ioctl_audit cfg cmd name uid ret w).trace.filter Event.is_ioctl_audit =
        w.trace.filter Event.is_ioctl_audit ++ [Event.ioctl_audit cmd name uid ret] ∧
      (ksu_ioctl_audit cfg cmd name uid ret w).trace.filter Event.is_syscall_report =
        w.trace.filter Event.is_syscall_report ++
          (if cfg.SULOG_GATE then
            [Event.ksu_sulog_report_syscall uid name (audit_result ret)] else []) := by
  unfold ksu_ioctl_audit
  cases cfg.SULOG_GATE <;>
    simp [List.filter_append, List.filter_cons, Event.is_ioctl_audit, Event.is_syscall_report]

/-- The audit calls and audit records of one dispatch, for an opcode whose
selected row is `e`: exactly one call, carrying the returned code, and one
record labelled from that code when the log gate is compiled in. -/
theorem dispatch_audit_found {σ : Type} (cfg : Config) (K : Consts) (O : Opcodes)
    (X : Externals σ) (c : Caller) (env : Env) (cmd arg : Nat) (w : World σ)
    (e : ksu_ioctl_cmd_map) (hfind : find_entry (ksu_ioctl_handlers cfg O) cmd = some e) :
    (anon_ksu_ioctl cfg K O X c env cmd arg w).2.trace.filter Event.is_ioctl_audit =
        w.trace.filter Event.is_ioctl_audit ++
          [Event.ioctl_audit cmd e.name c.uid (anon_ksu_ioctl cfg K O X c env cmd arg w).1] ∧
      (anon_ksu_ioctl cfg K O X c env cmd arg w).2.trace.filter Event.is_syscall_report =
        w.trace.filter Event.is_syscall_report ++
          (if cfg.SULOG_GATE then
            [Event.ksu_sulog_report_syscall c.uid e.name
              (audit_result (anon_ksu_ioctl cfg K O X c env cmd arg w).1)] else []) := by
  obtain ⟨h, _, hloop⟩ := ioctl_loop_found cfg K X c env cmd arg w e _ hfind
  have hpa := perm_events_not_audit cfg e c
  have hp1 := filter_eq_nil_of_forall_false Event.is_ioctl_audit _ (fun ev hev => (hpa ev hev).1)
  have hp2 := filter_eq_nil_of_forall_false Event.is_syscall_report _
    (fun ev hev => (hpa ev hev).2)
  unfold anon_ksu_ioctl
  rw [hloop]
  by_cases hperm : perm_value cfg e c = false
  · rw [if_pos hperm]
    simp only
    obtain ⟨a1, a2⟩ := audit_adds cfg cmd e.name c.uid (-EPERM)
      { w with trace := w.trace ++ perm_events cfg e c }
    rw [a1, a2]
    simp only [List.filter_append, hp1, hp2, List.append_nil]
    exact ⟨trivial, trivial⟩
  · rw [if_neg hperm]
    simp only
    obtain ⟨evs, ht, hcalls⟩ := call_handler_calls cfg K X h c env arg
      { w with trace := w.trace ++ perm_events cfg e c ++ [Event.handler_call h arg] }
    have hc1 := filter_eq_nil_of_forall_false Event.is_ioctl_audit evs
      (fun ev hev => (lifecycle_calls_not_audit ev (hcalls ev hev)).1)
    have hc2 := filter_eq_nil_of_forall_false Event.is_syscall_report evs
      (fun ev hev => (lifecycle_calls_not_audit ev (hcalls ev hev)).2)
    obtain ⟨a1, a2⟩ := audit_adds cfg cmd e.name c.uid
      (call_handler cfg K X h c env arg
        { w with trace := w.trace ++ perm_events cfg e c ++ [Event.handler_call h arg] }).1
      (call_handler cfg K X h c env arg
        { w with trace := w.trace ++ perm_events cfg e c ++ [Event.handler_call h arg] }).2
    rw [a1, a2, ht]
    simp only [List.filter_append, hp1, hp2, hc1, hc2, List.append_nil]
    simp [List.filter_cons, Event.is_ioctl_audit, Event.is_syscall_report]

theorem find_entry_none {tbl : List ksu_ioctl_cmd_map} {cmd : Nat}
    (h : find_entry tbl cmd = none) : ∀ e ∈ real_entries tbl, e.cmd ≠ cmd := by
  intro e he heq
  unfold find_entry at h
  rw [List.find?_eq_none] at h
  exact h e he (by simp [heq])

/-- C12: in one dispatch `ksu_ioctl_audit` is called exactly once when the
opcode selects a row of the table (denied, succeeded or failed alike) and not
at all when the opcode is unsupported; the records reaching the audit sink
follow suit, one at most. -/
theorem audit_called_at_most_once {σ : Type} (cfg : Config) (K : Consts) (O : Opcodes)
    (X : Externals σ) (c : Caller) (env : Env) (cmd arg : Nat) (w : World σ) :
    (anon_ksu_ioctl cfg K O X c env cmd arg w).2.trace.filter Event.is_ioctl_audit =
        w.trace.filter Event.is_ioctl_audit ++
          (match find_entry (ksu_ioctl_handlers cfg O) cmd with
            | none => []
            | some e =>
              [Event.ioctl_audit cmd e.name c.uid
                (anon_ksu_ioctl cfg K O X c env cmd arg w).1]) ∧
      ((anon_ksu_ioctl cfg K O X c env cmd arg w).2.trace.filter Event.is_syscall_report).length
        ≤ (w.trace.filter Event.is_syscall_report).length + 1 := by
  cases hf : find_entry (ksu_ioctl_handlers cfg O) cmd with
  | none =>
    have hu : anon_ksu_ioctl cfg K O X c env cmd arg w = (-ENOTTY, w) :=
      ioctl_loop_unsupported cfg K X c env cmd arg w _ (find_entry_none hf)
    rw [hu]
    simp
  | some e =>
    obtain ⟨h1, h2⟩ := dispatch_audit_found cfg K O X c env cmd arg w e hf
    refine ⟨h1, ?_⟩
    rw [h2]
    cases cfg.SULOG_GATE <;> simp

theorem audit_result_cases (r : Int) :
    (audit_result r = "SUCCESS" ↔ r = 0) ∧ (audit_result r = "DENIED" ↔ r = -EPERM) ∧
      (audit_result r = "FAILED" ↔ (r ≠ 0 ∧ r ≠ -EPERM)) := by
  unfold audit_result
  by_cases h0 : r = 0
  · subst h0
    simp [EPERM]
  · by_cases h1 : r = -EPERM
    · subst h1
      simp [EPERM]
    · simp [h0, h1]

/-- C14, as stated, fails: root asks to add "/x" while the registry holds it;
the permission check passes, the handler returns `-1`, which is not the
success value, and the record is labelled "DENIED", not "FAILED". -/
theorem audit_label_counterexample :
    perm_value sample_config
        { cmd := 118, name := some "ADD_TRY_UMOUNT", handler := some Handler.add_try_umount,
          perm_check := some Perm.manager_or_root } sample_root = true ∧
      (anon_ksu_ioctl sample_config sample_consts sample_opcodes sample_externals sample_root
        (sample_env 2 1 0) 118 16 sample_world).1 = -1 ∧
      (anon_ksu_ioctl sample_config sample_consts sample_opcodes sample_externals sample_root
        (sample_env 2 1 0) 118 16 sample_world).2.trace =
        [Event.perm_check Perm.manager_or_root, Event.handler_call Handler.add_try_umount 16,
          Event.ioctl_audit 118 (some "ADD_TRY_UMOUNT") 0 (-1),
          Event.ksu_sulog_report_syscall 0 (some "ADD_TRY_UMOUNT") "DENIED"] := by
  refine ⟨by decide, ?_, ?_⟩ <;> decide

/-- C14, amended: for the row selected by the opcode, the record handed to
the audit sink (one, when the log gate is compiled in) is labelled "DENIED"
when the permission check is false; when it passes, the label is computed
from the code `r` the handler returned: "SUCCESS" exactly for 0, "DENIED"
exactly for `-EPERM`, "FAILED" exactly for every other code. -/
theorem audit_label_by_code {σ : Type} (cfg : Config) (K : Consts) (O : Opcodes)
    (X : Externals σ) (c : Caller) (env : Env) (cmd arg : Nat) (w : World σ)
    (e : ksu_ioctl_cmd_map) (hfind : find_entry (ksu_ioctl_handlers cfg O) cmd = some e) :
    (perm_value cfg e c = false →
      (anon_ksu_ioctl cfg K O X c env cmd arg w).2.trace.filter Event.is_syscall_report =
        w.trace.filter Event.is_syscall_report ++
          (if cfg.SULOG_GATE then
            [Event.ksu_sulog_report_syscall c.uid e.name "DENIED"] else [])) ∧
    (perm_value cfg e c = true →
      ∃ h, e.handler = some h ∧
        (anon_ksu_ioctl cfg K O X c env cmd arg w).2.trace.filter Event.is_syscall_report =
          w.trace.filter Event.is_syscall_report ++
            (if cfg.SULOG_GATE then
              [Event.ksu_sulog_report_syscall c.uid e.name
                (audit_result (call_handler cfg K X h c env arg
                  { w with trace := w.trace ++ perm_events cfg e c ++
                      [Event.handler_call h arg] }).1)] else [])) ∧
    (∀ r : Int, (audit_result r = "SUCCESS" ↔ r = 0) ∧ (audit_result r = "DENIED" ↔ r = -EPERM) ∧
      (audit_result r = "FAILED" ↔ (r ≠ 0 ∧ r ≠ -EPERM))) := by
  obtain ⟨h, hh, hloop⟩ := ioctl_loop_found cfg K X c env cmd arg w e _ hfind
  have hrec := (dispatch_audit_found cfg K O X c env cmd arg w e hfind).2
  refine ⟨?_, ?_, audit_result_cases⟩
  · intro hperm
    have hr : (anon_ksu_ioctl cfg K O X c env cmd arg w).1 = -EPERM := by
      unfold anon_ksu_ioctl; rw [hloop, if_pos hperm]
    rw [hrec, hr]
    rfl
  · intro hperm
    have hne : ¬ perm_value cfg e c = false := by rw [hperm]; exact Bool.noConfusion
    have hr : (anon_ksu_ioctl cfg K O X c env cmd arg w).1 =
        (call_handler cfg K X h c env arg
          { w with trace := w.trace ++ perm_events cfg e c ++ [Event.handler_call h arg] }).1 := by
      unfold anon_ksu_ioctl; rw [hloop, if_neg hne]
    exact ⟨h, hh, by rw [hrec, hr]⟩

theorem audit_label_by_code_witness :
    (anon_ksu_ioctl sample_config sample_consts sample_opcodes sample_externals sample_app
        (sample_env 0 0 1) 104 8 sample_world).2.trace.filter Event.is_syscall_report =
      [Event.ksu_sulog_report_syscall 10123 (some "SET_SEPOLICY") "DENIED"] :=
  (audit_label_by_code sample_config sample_consts sample_opcodes sample_externals sample_app
    (sample_env 0 0 1) 104 8 sample_world
    { cmd := 104, name := some "SET_SEPOLICY", handler := some Handler.do_set_sepolicy,
      perm_check := some Perm.only_root } (by decide)).1 (by decide)

/-! ## The mount registry: insertion order, long paths and result codes -/

theorem string_env_user_cstr (p : List Nat) (flags mode : Nat) :
    user_cstr (string_env p flags mode).byte_at 32 p := by
  intro i hi
  have h32 : ¬ 32 + i < 32 := by omega
  have hsub : 32 + i - 32 = i := by omega
  show (if 32 + i < 32 then none else (p ++ [0])[32 + i - 32]?) = some (p.getD i 0)
  rw [if_neg h32, hsub, List.getD_eq_getElem?_getD]
  rcases Nat.lt_or_ge i p.length with hlt | hge
  · rw [List.getElem?_append_left hlt, List.getElem?_eq_getElem hlt]
    rfl
  · have hieq : i = p.length := by omega
    subst hieq
    rw [List.getElem?_append_right (Nat.le_refl _)]
    simp

theorem dup_scan_of_not_mem (p : List Nat) (hp : (0 : Nat) ∉ p) (ml : List mount_entry)
    (hwf : registry_wf ml) (h : ∀ e ∈ ml, e.umountable ≠ p) : dup_scan p ml = false := by
  rw [Bool.eq_false_iff]
  intro hs
  obtain ⟨e, he, heq⟩ := (dup_scan_eq_true_iff _ _).1 hs
  rw [cstr_of_no_zero (hwf e he), cstr_of_no_zero hp] at heq
  exact h e he heq

theorem path_y_valid : valid_path path_y := by decide

/-- C15, as stated, fails: adding "/y" to a registry that holds "/x" succeeds
and leaves "/y" first and "/x" second, not "/x" followed by "/y". -/
theorem add_position_counterexample :
    add_try_umount sample_consts (string_env path_y 5 1) 16
        [{ umountable := path_x, flags := 1 }] =
      (0, [{ umountable := path_y, flags := 5 }, { umountable := path_x, flags := 1 }]) ∧
    ([{ umountable := path_y, flags := 5 }, { umountable := path_x, flags := 1 }] :
        List mount_entry) ≠
      [{ umountable := path_x, flags := 1 }] ++ [{ umountable := path_y, flags := 5 }] := by
  constructor
  · rw [add_try_umount_add_eval sample_consts (string_env path_y 5 1) 16
      { arg := 32, flags := 5, mode := 1 } path_y _ rfl rfl (by decide) path_y_valid
      (string_env_user_cstr path_y 5 1)]
    decide
  · decide

/-- C15, amended: when the registry holds no entry for the valid path `p` and
both allocations succeed, an Add request naming `p` returns 0 and the new
registry is the new entry, with the flags of the request (0 when it carries
none), in front of the previous entries in their previous order. -/
theorem add_fresh_goes_first (K : Consts) (env : Env) (arg : Nat)
    (cmd : ksu_add_try_umount_cmd) (p : List Nat) (ml : List mount_entry)
    (hcmd : env.add_try_umount_cmd_at arg = some cmd) (hmode : cmd.mode = K.KSU_UMOUNT_ADD)
    (hK : K.KSU_UMOUNT_ADD ≠ K.KSU_UMOUNT_WIPE) (hv : valid_path p)
    (hu : user_cstr env.byte_at cmd.arg p) (hwf : registry_wf ml)
    (hfresh : ∀ e ∈ ml, e.umountable ≠ p) (hz : env.kzalloc_ok = true)
    (hs : env.kstrdup_ok = true) :
    add_try_umount K env arg ml = (0, { umountable := p, flags := cmd.flags } :: ml) := by
  rw [add_try_umount_add_eval K env arg cmd p ml hcmd hmode hK hv hu, hz, hs,
    dup_scan_of_not_mem p hv.2.2 ml hwf hfresh]
  simp

theorem add_fresh_goes_first_witness :
    add_try_umount sample_consts (string_env path_y 0 1) 16
        [{ umountable := path_x, flags := 1 }, { umountable := [47, 122], flags := 4 }] =
      (0, [{ umountable := path_y, flags := 0 }, { umountable := path_x, flags := 1 },
        { umountable := [47, 122], flags := 4 }]) :=
  add_fresh_goes_first sample_consts (string_env path_y 0 1) 16
    { arg := 32, flags := 0, mode := 1 } path_y _ rfl rfl (by decide) path_y_valid
    (string_env_user_cstr path_y 0 1) (by decide) (by decide) rfl rfl

/-- C17, the code on three failing requests: an Add of a path already present,
an Add whose `kstrdup` fails, and a dispatch denied by the permission check
all return the same code `-1`; only the failure of the first allocation has a
code of its own, `-ENOMEM`. -/
theorem result_codes_coincide :
    (add_try_umount sample_consts (sample_env 2 1 0) 16
        [{ umountable := path_x, flags := 1 }]).1 = -1 ∧
      (add_try_umount sample_consts { sample_env 2 1 0 with kstrdup_ok := false } 16 []).1 = -1 ∧
      (anon_ksu_ioctl sample_config sample_consts sample_opcodes sample_externals sample_app
        (sample_env 0 0 1) 103 8 sample_world).1 = -1 ∧
      (add_try_umount sample_consts { sample_env 2 1 0 with kzalloc_ok := false } 16 []).1 =
        -12 := by
  refine ⟨?_, ?_, ?_, ?_⟩ <;> decide

/-! ## Overlapping report-event calls: properties -/

theorem get_set_true (l : Latches) (kind : LatchKind) : (l.set_true kind).get kind = true := by
  cases kind <;> rfl

theorem getElem?_set_of_some {α : Type} (l : List α) (t : Nat) (x a : α)
    (h : l[t]? = some x) : (l.set t a)[t]? = some a := by
  have hlt : t < l.length := by
    by_contra hn
    rw [List.getElem?_eq_none (by omega)] at h
    exact Option.noConfusion h
  rw [List.getElem?_set, if_pos rfl, if_pos hlt]

theorem getElem?_set_of_ne {α : Type} (l : List α) (t u : Nat) (a : α) (h : t ≠ u) :
    (l.set t a)[u]? = l[u]? := by
  rw [List.getElem?_set, if_neg h]

/-- A caller that runs its two accesses back to back does what one call of
`do_report_event` with a readable request of that kind does: same latches
afterwards, same calls. -/
theorem race_alone_eq_do_report_event (cfg : Config) (K : Consts) (hK : K.events_distinct)
    (kind : LatchKind) (env : Env) (arg : Nat) (t : Nat) (s : RaceState)
    (hreq : reports_event (kind.event K) (env, arg) = true)
    (hpc : s.pcs[t]? = some LatchPc.at_check) :
    (run_schedule cfg kind [t, t] s).latches = (do_report_event cfg K env arg s.latches).2.1 ∧
      (run_schedule cfg kind [t, t] s).calls =
        s.calls ++ (do_report_event cfg K env arg s.latches).2.2.map (fun e => (t, e)) := by
  unfold reports_event at hreq
  cases hcmd : env.report_event_cmd_at arg with
  | none => rw [hcmd] at hreq; exact absurd hreq (by simp)
  | some cmd =>
    rw [hcmd] at hreq
    have hev : cmd.event = kind.event K := of_decide_eq_true hreq
    cases kind with
    | post_fs_data =>
      have h1 : cmd.event = K.EVENT_POST_FS_DATA := hev
      unfold do_report_event
      rw [hcmd]
      simp only
      rw [if_pos h1]
      cases hl : s.latches.post_fs_data_lock
      · have hg : s.latches.get LatchKind.post_fs_data = false := hl
        simp only [run_schedule, race_step, hpc, hg, if_true,
          getElem?_set_of_some _ _ _ _ hpc]
        exact ⟨rfl, rfl⟩
      · have hg : s.latches.get LatchKind.post_fs_data = true := hl
        simp [run_schedule, race_step, hpc, hg, getElem?_set_of_some _ _ _ _ hpc]
    | boot_completed =>
      have h2 : cmd.event = K.EVENT_BOOT_COMPLETED := hev
      have h1 : ¬ cmd.event = K.EVENT_POST_FS_DATA := by rw [h2]; exact hK.1
      unfold do_report_event
      rw [hcmd]
      simp only
      rw [if_neg h1, if_pos h2]
      cases hl : s.latches.boot_complete_lock
      · have hg : s.latches.get LatchKind.boot_completed = false := hl
        simp only [run_schedule, race_step, hpc, hg, if_true,
          getElem?_set_of_some _ _ _ _ hpc]
        exact ⟨rfl, rfl⟩
      · have hg : s.latches.get LatchKind.boot_completed = true := hl
        simp [run_schedule, race_step, hpc, hg, getElem?_set_of_some _ _ _ _ hpc]

/-- Once the latch is set, callers running one after another make no call
and leave the latches alone. -/
theorem serial_after_set (cfg : Config) (kind : LatchKind) :
    ∀ (order : List Nat) (s : RaceState),
      (∀ t ∈ order, s.pcs[t]? = some LatchPc.at_check) → order.Nodup →
      s.latches.get kind = true →
      (run_schedule cfg kind (serial order) s).calls = s.calls ∧
        (run_schedule cfg kind (serial order) s).latches = s.latches := by
  intro order
  induction order with
  | nil => intro s _ _ _; exact ⟨rfl, rfl⟩
  | cons t rest ih =>
    intro s hpcs hnd hset
    have hpc := hpcs t (List.mem_cons_self _ _)
    have hne : ¬ s.latches.get kind = false := by rw [hset]; exact Bool.noConfusion
    have hs1 : race_step cfg kind t s = { s with pcs := s.pcs.set t LatchPc.past } := by
      unfold race_step
      rw [hpc]
      simp only
      rw [if_neg hne]
    have hs2 : race_step cfg kind t { s with pcs := s.pcs.set t LatchPc.past } =
        { s with pcs := s.pcs.set t LatchPc.past } := by
      unfold race_step
      simp only
      rw [getElem?_set_of_some _ _ _ _ hpc]
    have hrest : ∀ u ∈ rest,
        ({ s with pcs := s.pcs.set t LatchPc.past } : RaceState).pcs[u]? =
          some LatchPc.at_check := by
      intro u hu
      have htu : t ≠ u := fun h => (List.nodup_cons.1 hnd).1 (h ▸ hu)
      show (s.pcs.set t LatchPc.past)[u]? = some LatchPc.at_check
      rw [getElem?_set_of_ne _ _ _ _ htu]
      exact hpcs u (List.mem_cons_of_mem _ hu)
    have := ih { s with pcs := s.pcs.set t LatchPc.past } hrest (List.nodup_cons.1 hnd).2 hset
    show (run_schedule cfg kind (serial rest)
        (race_step cfg kind t (race_step cfg kind t s))).calls = s.calls ∧
      (run_schedule cfg kind (serial rest)
        (race_step cfg kind t (race_step cfg kind t s))).latches = s.latches
    rw [hs1, hs2]
    exact this

/-- With the latch unset, the first of the callers running one after another
sets it and makes the calls of the block; nobody else makes any. -/
theorem serial_from_unset (cfg : Config) (kind : LatchKind) (t : Nat) (rest : List Nat)
    (s : RaceState) (hpcs : ∀ u ∈ t :: rest, s.pcs[u]? = some LatchPc.at_check)
    (hnd : (t :: rest).Nodup) (hunset : s.latches.get kind = false) :
    (run_schedule cfg kind (serial (t :: rest)) s).calls =
        s.calls ++ (kind.actions cfg).map (fun e => (t, e)) ∧
      (run_schedule cfg kind (serial (t :: rest)) s).latches = s.latches.set_true kind := by
  have hpc := hpcs t (List.mem_cons_self _ _)
  have hs1 : race_step cfg kind t s = { s with pcs := s.pcs.set t LatchPc.in_block } := by
    unfold race_step
    rw [hpc]
    simp only
    rw [if_pos hunset]
  have hs2 : race_step cfg kind t { s with pcs := s.pcs.set t LatchPc.in_block } =
      { latches := s.latches.set_true kind,
        pcs := (s.pcs.set t LatchPc.in_block).set t LatchPc.past,
        calls := s.calls ++ (kind.actions cfg).map (fun e => (t, e)) } := by
    unfold race_step
    simp only
    rw [getElem?_set_of_some _ _ _ _ hpc]
  have hrest : ∀ u ∈ rest,
      ({ latches := s.latches.set_true kind,
         pcs := (s.pcs.set t LatchPc.in_block).set t LatchPc.past,
         calls := s.calls ++ (kind.actions cfg).map (fun e => (t, e)) } : RaceState).pcs[u]? =
        some LatchPc.at_check := by
    intro u hu
    have htu : t ≠ u := fun h => (List.nodup_cons.1 hnd).1 (h ▸ hu)
    show ((s.pcs.set t LatchPc.in_block).set t LatchPc.past)[u]? = some LatchPc.at_check
    rw [getElem?_set_of_ne _ _ _ _ htu, getElem?_set_of_ne _ _ _ _ htu]
    exact hpcs u (List.mem_cons_of_mem _ hu)
  have := serial_after_set cfg kind rest _ hrest (List.nodup_cons.1 hnd).2
    (get_set_true s.latches kind)
  show (run_schedule cfg kind (serial rest)
      (race_step cfg kind t (race_step cfg kind t s))).calls = _ ∧
    (run_schedule cfg kind (serial rest)
      (race_step cfg kind t (race_step cfg kind t s))).latches = _
  rw [hs1, hs2]
  exact this

/-- C13, as stated, fails: two callers report the same kind, both read the
latch before either sets it, and the calls of the block are made by both, for
post-fs-data as for boot-completed. -/
theorem latch_race_counterexample :
    (run_schedule sample_config LatchKind.post_fs_data [0, 1, 0, 1] (race_start 2)).calls.filter
        (fun c => decide (c.2 = Event.on_post_fs_data)) =
      [(0, Event.on_post_fs_data), (1, Event.on_post_fs_data)] ∧
    (run_schedule sample_config LatchKind.boot_completed [0, 1, 0, 1] (race_start 2)).calls.filter
        (fun c => decide (c.2 = Event.on_boot_completed)) =
      [(0, Event.on_boot_completed), (1, Event.on_boot_completed)] := by
  constructor <;> decide

/-- A step never clears a set latch. -/
theorem race_step_keeps_set (cfg : Config) (kind : LatchKind) (t : Nat) (s : RaceState)
    (h : s.latches.get kind = true) : (race_step cfg kind t s).latches.get kind = true := by
  have hne : ¬ s.latches.get kind = false := by rw [h]; exact Bool.noConfusion
  unfold race_step
  cases hp : s.pcs[t]? with
  | none => exact h
  | some pc =>
    cases pc with
    | at_check => simp only; rw [if_neg hne]; exact h
    | in_block => exact get_set_true s.latches kind
    | past => exact h

/-- No schedule clears a set latch. -/
theorem run_schedule_keeps_set (cfg : Config) (kind : LatchKind) :
    ∀ (sched : List Nat) (s : RaceState), s.latches.get kind = true →
      (run_schedule cfg kind sched s).latches.get kind = true := by
  intro sched
  induction sched with
  | nil => intro s h; exact h
  | cons t rest ih => intro s h; exact ih _ (race_step_keeps_set cfg kind t s h)

/-- A step leaves the position of every other caller alone. -/
theorem race_step_other_pc (cfg : Config) (kind : LatchKind) (u t : Nat) (s : RaceState)
    (h : u ≠ t) : (race_step cfg kind u s).pcs[t]? = s.pcs[t]? := by
  unfold race_step
  cases hp : s.pcs[u]? with
  | none => rfl
  | some pc =>
    cases pc with
    | at_check =>
      simp only
      split_ifs <;> exact getElem?_set_of_ne _ _ _ _ h
    | in_block => exact getElem?_set_of_ne _ _ _ _ h
    | past => rfl

/-- The number of unset-to-set steps of a schedule: one when the latch starts
unset and ends set, none otherwise. -/
theorem latch_flips_eq (cfg : Config) (kind : LatchKind) :
    ∀ (sched : List Nat) (s : RaceState),
      latch_flips cfg kind sched s =
        if s.latches.get kind = false ∧
            (run_schedule cfg kind sched s).latches.get kind = true then 1 else 0 := by
  intro sched
  induction sched with
  | nil =>
    intro s
    have hno : ¬ (s.latches.get kind = false ∧ s.latches.get kind = true) := by
      intro h; rw [h.1] at h; exact Bool.noConfusion h.2
    show 0 = if s.latches.get kind = false ∧ s.latches.get kind = true then 1 else 0
    rw [if_neg hno]
  | cons t rest ih =>
    intro s
    show (if s.latches.get kind = false ∧ (race_step cfg kind t s).latches.get kind = true
        then 1 else 0) + latch_flips cfg kind rest (race_step cfg kind t s) =
      if s.latches.get kind = false ∧
        (run_schedule cfg kind rest (race_step cfg kind t s)).latches.get kind = true
      then 1 else 0
    rw [ih]
    cases hs : s.latches.get kind
    · cases hs1 : (race_step cfg kind t s).latches.get kind
      · cases hf : (run_schedule cfg kind rest (race_step cfg kind t s)).latches.get kind <;>
          simp
      · rw [run_schedule_keeps_set cfg kind rest _ hs1]
        simp
    · rw [race_step_keeps_set cfg kind t s hs]
      simp

/-- A caller inside the block that still has a turn sets the latch. -/
theorem set_by_caller_in_block (cfg : Config) (kind : LatchKind) (t : Nat) :
    ∀ (sched : List Nat) (s : RaceState), s.pcs[t]? = some LatchPc.in_block → t ∈ sched →
      (run_schedule cfg kind sched s).latches.get kind = true := by
  intro sched
  induction sched with
  | nil => intro s _ hm; simp at hm
  | cons u rest ih =>
    intro s hpc hm
    by_cases hut : u = t
    · subst hut
      have hstep : (race_step cfg kind u s).latches.get kind = true := by
        unfold race_step
        rw [hpc]
        exact get_set_true s.latches kind
      exact run_schedule_keeps_set cfg kind rest _ hstep
    · have hrest : t ∈ rest := by
        rcases List.mem_cons.1 hm with h | h
        · exact absurd h.symm hut
        · exact h
      have hpc2 : (race_step cfg kind u s).pcs[t]? = some LatchPc.in_block := by
        rw [race_step_other_pc cfg kind u t s hut]; exact hpc
      exact ih _ hpc2 hrest

/-- A caller about to read the latch that gets two turns leaves the latch
set, whatever the other callers do in between. -/
theorem set_by_caller_with_two_turns (cfg : Config) (kind : LatchKind) (t : Nat) :
    ∀ (sched : List Nat) (s : RaceState), s.pcs[t]? = some LatchPc.at_check →
      2 ≤ sched.count t → (run_schedule cfg kind sched s).latches.get kind = true := by
  intro sched
  induction sched with
  | nil => intro s _ hc; simp at hc
  | cons u rest ih =>
    intro s hpc hc
    by_cases hut : u = t
    · subst hut
      have hrest : u ∈ rest := by
        rw [List.count_cons_self] at hc
        exact List.count_pos_iff.1 (by omega)
      cases hs : s.latches.get kind
      · have hpc2 : (race_step cfg kind u s).pcs[u]? = some LatchPc.in_block := by
          unfold race_step
          rw [hpc]
          simp only
          rw [if_pos hs]
          exact getElem?_set_of_some _ _ _ _ hpc
        exact set_by_caller_in_block cfg kind u rest _ hpc2 hrest
      · exact run_schedule_keeps_set cfg kind rest _ (race_step_keeps_set cfg kind u s hs)
    · have hc2 : 2 ≤ rest.count t := by
        rw [List.count_cons_of_ne (fun h => hut h.symm)] at hc
        exact hc
      have hpc2 : (race_step cfg kind u s).pcs[t]? = some LatchPc.at_check := by
        rw [race_step_other_pc cfg kind u t s hut]; exact hpc
      exact ih _ hpc2 hc2

/-- C13, amended: under every schedule of callers reporting one event kind,
overlapping or not, a set latch is never cleared, the latch goes from unset
to set at most once, and exactly once as soon as some caller has had both its
turns.  The calls of the block (`on_post_fs_data`, ... for post-fs-data,
`on_boot_completed`, ... for boot-completed) are made exactly once, all by
the first caller, when the callers run one after another, each doing its
read and its set of the latch back to back. -/
theorem latch_set_once_init_once_if_serial (cfg : Config) (kind : LatchKind) (n : Nat) :
    (∀ (sched : List Nat) (s : RaceState), s.latches.get kind = true →
      (run_schedule cfg kind sched s).latches.get kind = true) ∧
    (∀ sched : List Nat, latch_flips cfg kind sched (race_start n) ≤ 1) ∧
    (∀ (sched : List Nat) (t : Nat), t < n → 2 ≤ sched.count t →
      latch_flips cfg kind sched (race_start n) = 1 ∧
        (run_schedule cfg kind sched (race_start n)).latches.get kind = true) ∧
    (∀ order : List Nat, order.Nodup → (∀ t ∈ order, t < n) →
      (run_schedule cfg kind (serial order) (race_start n)).calls =
          (match order with
            | [] => []
            | t :: _ => (kind.actions cfg).map (fun e => (t, e))) ∧
        (run_schedule cfg kind (serial order) (race_start n)).latches =
          (match order with
            | [] => Latches.initial
            | _ :: _ => Latches.initial.set_true kind)) ∧
    LatchKind.post_fs_data.actions cfg =
      [Event.on_post_fs_data] ++ (if cfg.SULOG_GATE then [Event.ksu_sulog_init] else []) ++
        [Event.ksu_dynamic_manager_init] ∧
    LatchKind.boot_completed.actions cfg =
      [Event.on_boot_completed] ++
        (if cfg.CONFIG_KSU_SUSFS then [Event.susfs_start_sdcard_monitor_fn] else []) := by
  have hunset : (race_start n).latches.get kind = false := by cases kind <;> rfl
  refine ⟨run_schedule_keeps_set cfg kind, ?_, ?_, ?_, rfl, rfl⟩
  · intro sched
    rw [latch_flips_eq]
    split_ifs <;> omega
  · intro sched t ht hc
    have hpc : (race_start n).pcs[t]? = some LatchPc.at_check := by
      show (List.replicate n LatchPc.at_check)[t]? = some LatchPc.at_check
      rw [List.getElem?_replicate, if_pos ht]
    have hset := set_by_caller_with_two_turns cfg kind t sched (race_start n) hpc hc
    refine ⟨?_, hset⟩
    rw [latch_flips_eq, if_pos ⟨hunset, hset⟩]
  · intro order hnd hlt
    cases order with
    | nil => exact ⟨rfl, rfl⟩
    | cons t rest =>
      have hpcs : ∀ u ∈ t :: rest, (race_start n).pcs[u]? = some LatchPc.at_check := by
        intro u hu
        show (List.replicate n LatchPc.at_check)[u]? = some LatchPc.at_check
        rw [List.getElem?_replicate, if_pos (hlt u hu)]
      have h := serial_from_unset cfg kind t rest (race_start n) hpcs hnd hunset
      exact ⟨by rw [h.1]; rfl, h.2⟩

theorem latch_set_once_init_once_if_serial_witness :
    latch_flips sample_config LatchKind.post_fs_data [0, 1, 0, 1] (race_start 2) = 1 ∧
      (run_schedule sample_config LatchKind.post_fs_data (serial [1, 0, 2])
        (race_start 3)).calls =
        [(1, Event.on_post_fs_data), (1, Event.ksu_sulog_init),
          (1, Event.ksu_dynamic_manager_init)] ∧
      (run_schedule sample_config LatchKind.post_fs_data (serial [1, 0, 2])
        (race_start 3)).latches = { post_fs_data_lock := true, boot_complete_lock := false } := by
  have h := latch_set_once_init_once_if_serial sample_config LatchKind.post_fs_data
  exact ⟨((h 2).2.2.1 [0, 1, 0, 1] 0 (by decide) (by decide)).1,
    (h 3).2.2.2.1 [1, 0, 2] (by decide) (by decide)⟩

end VortexSU
